import Mathlib

/-!
Verification development for `ChiantiPy/spectrum/spectrum.py`
(classes `spectrum` and `bunch`).

The source builds synthetic emission spectra by folding per-species
contributions from external models (ion, Continuum) into running numpy
accumulation arrays of shape `(NTempDen, nWvl)`.  We embed the engine's own
control flow and array bookkeeping shallowly:

* numpy 2-d arrays of rationals are `Mat := List (List ℚ)` (rows = grid
  points, columns = wavelength bins); elementwise `+` is `matAdd`;
* `numpy.squeeze` (which drops unit axes) is `squeeze : Mat → SqArr` where
  `SqArr` distinguishes a 0-d scalar, a 1-d vector and a 2-d matrix;
* the external models (`ion`, `Continuum`, `ionGate`, the CHIANTI database)
  are inputs of the run: an environment maps each gated species key to the
  arrays / outcomes those collaborators would return;
* Python exceptions in the engine's own code are `Except` /
  explicit outcome constructors (`ValueError` from
  `calculate_free_bound_emission` is the `noData` outcome, any other
  exception is `failure`; the unset-attribute crash in `bunch` is
  `attrError`).
-/

set_option autoImplicit false

namespace ChiantiSpec

/-- A 1-d numpy array of floats (one row of an accumulation array). -/
abbrev Row := List ℚ

/-- A 2-d numpy array of floats, shape (number of grid points, nWvl). -/
abbrev Mat := List Row

/-- Elementwise sum of two rows (numpy `+` on equal-shape 1-d arrays). -/
def rowAdd (a b : Row) : Row := List.zipWith (· + ·) a b

/-- Elementwise sum of two matrices (numpy `+` on equal-shape 2-d arrays). -/
def matAdd (a b : Mat) : Mat := List.zipWith rowAdd a b

/-- `np.zeros(n)`. -/
def zerosRow (n : Nat) : Row := List.replicate n 0

/-- `np.zeros((m, n))`. -/
def zerosMat (m n : Nat) : Mat := List.replicate m (zerosRow n)

/-- Result of `numpy.squeeze`: a 0-d scalar, 1-d vector or 2-d matrix. -/
inductive SqArr where
  | scalar : ℚ → SqArr
  | one : Row → SqArr
  | many : Mat → SqArr
deriving DecidableEq, Repr, Inhabited

/-- `m.squeeze()` for a 2-d array `m`: drop the axes of extent 1.
`(1,1) → 0-d`, `(1,n) → (n,)`, `(m,1) → (m,)`, otherwise unchanged. -/
def squeeze (m : Mat) : SqArr :=
  match m with
  | [[x]] => SqArr.scalar x
  | [r] => SqArr.one r
  | m =>
    if m.all (fun r => r.length == 1) then SqArr.one (m.map (fun r => r.headI))
    else SqArr.many m

/-- Elementwise sum of two squeezed arrays of the same shape (the shape
mismatch arms are unreachable for the equal-shape arrays the engine adds). -/
def sqAdd (a b : SqArr) : SqArr :=
  match a, b with
  | SqArr.scalar x, SqArr.scalar y => SqArr.scalar (x + y)
  | SqArr.one r, SqArr.one s => SqArr.one (rowAdd r s)
  | SqArr.many m, SqArr.many n => SqArr.many (matAdd m n)
  | a, _ => a

/-- `numpy.sum(axis=0)` on a squeezed array: fold rows elementwise. -/
def sumAxis0 (a : SqArr) : SqArr :=
  match a with
  | SqArr.scalar x => SqArr.scalar x
  | SqArr.one r => SqArr.scalar r.sum
  | SqArr.many [] => SqArr.one []
  | SqArr.many (r :: rs) => SqArr.one (rs.foldl rowAdd r)

/-- Well-formed matrix of shape (m, n). -/
def wfMat (m n : Nat) (a : Mat) : Prop :=
  a.length = m ∧ ∀ r ∈ a, r.length = n

/-! ### Engine definitions -/

/-- Outcome of the external `Continuum.calculate_free_bound_emission` call:
either an emission array, or a raised `ValueError` (the signal that no
free-bound data exists for this species), or any other raised exception. -/
inductive FbOutcome where
  | ok : Mat → FbOutcome
  | noData : FbOutcome
  | failure : FbOutcome
deriving DecidableEq

/-- Everything the external collaborators (`util.convertName`, `ionGate`'s
`Todo` entry, `Continuum`, `ion`) would return for one gated species key.
`procs` models the `self.Todo[akey]` process string: `'ff' in self.Todo[akey]`
becomes `"ff" ∈ procs`. -/
structure SpeciesExt where
  Z : Int
  ionstage : Int
  dielectronic : Bool
  procs : List String
  ffEmission : Mat
  fbOutcome : FbOutcome
  lineError : Bool
  intensityTab : List (String × List ℚ)
  spectrumIntensity : Mat
  twoPhotonRate : Mat
deriving DecidableEq

/-- The engine's mutable per-run state during the species loop
(lines 138-201 of `spectrum.__init__`).  The source squeezes the zero
arrays at creation (line 138); that only changes the numpy shape metadata,
never the stored numbers, and every contribution added has the matching
shape, so we carry the un-squeezed `(N, nWvl)` contents and apply
`squeeze` where the source stores or sums the arrays (lines 203-217). -/
structure SpecState where
  freeFree : Mat
  freeBound : Mat
  twoPhoton : Mat
  lineSpectrum : Mat
  ionsCalculated : List String
  finished : List String
  ionInstanceKeys : List String
  intensityTab : Option (List (String × List ℚ))
deriving DecidableEq, Inhabited

/-- State at loop entry: four zero arrays, empty lists, no `Intensity`
attribute yet (`setupIntensity = 0`). -/
def initState (n nWvl : Nat) : SpecState :=
  { freeFree := zerosMat n nWvl
    freeBound := zerosMat n nWvl
    twoPhoton := zerosMat n nWvl
    lineSpectrum := zerosMat n nWvl
    ionsCalculated := []
    finished := []
    ionInstanceKeys := []
    intensityTab := none }

/-- An exception that escapes the species loop and aborts the run: any
non-`ValueError` raised by the free-bound computation. -/
inductive RunErr where
  | fbException : String → RunErr
deriving DecidableEq

/-- Lines 160-165: free-free contribution, expected to always succeed. -/
def stepFF (sp : SpeciesExt) (st : SpecState) : SpecState :=
  if "ff" ∈ sp.procs then { st with freeFree := matAdd st.freeFree sp.ffEmission }
  else st

/-- Lines 167-176: free-bound contribution inside `try ... except ValueError:
pass`; a `ValueError` (`noData`) is swallowed, any other exception escapes. -/
def stepFB (k : String) (sp : SpeciesExt) (st : SpecState) :
    Except RunErr SpecState :=
  if "fb" ∈ sp.procs then
    match sp.fbOutcome with
    | FbOutcome.ok e => Except.ok { st with freeBound := matAdd st.freeBound e }
    | FbOutcome.noData => Except.ok st
    | FbOutcome.failure => Except.error (RunErr.fbException k)
  else Except.ok st

/-- Lines 188-193: `self.Intensity` is the first successful ion's table,
thereafter each key of the existing table is extended by `np.hstack` with
the new ion's entry (key sets are assumed to match; the source does not
guard against a missing key). -/
def mergeIntensity (cur : Option (List (String × List ℚ)))
    (tab : List (String × List ℚ)) : Option (List (String × List ℚ)) :=
  match cur with
  | none => some tab
  | some cs => some (cs.map (fun p => (p.1, p.2 ++ ((tab.lookup p.1).getD []))))

/-- Lines 177-201: the line branch.  `IonsCalculated` always records the
attempt; on success (`'errorMessage' not in thisIon.Intensity`) the species
is marked finished, its convolved spectrum is added, the intensity tables
are merged and (with `keepIons`) the instance key is retained; finally the
two-photon contribution is added for H-like/He-like non-dielectronic
species regardless of the success of the line computation. -/
def stepLine (keepIons : Bool) (k : String) (sp : SpeciesExt)
    (st : SpecState) : SpecState :=
  if "line" ∈ sp.procs then
    let st1 := { st with ionsCalculated := st.ionsCalculated ++ [k] }
    let st2 :=
      if sp.lineError = false then
        { st1 with
          finished := st1.finished ++ [k]
          ionInstanceKeys :=
            if keepIons then st1.ionInstanceKeys ++ [k] else st1.ionInstanceKeys
          intensityTab := mergeIntensity st1.intensityTab sp.intensityTab
          lineSpectrum := matAdd st1.lineSpectrum sp.spectrumIntensity }
      else st1
    if (sp.Z - sp.ionstage = 0 ∨ sp.Z - sp.ionstage = 1) ∧
        sp.dielectronic = false then
      { st2 with twoPhoton := matAdd st2.twoPhoton sp.twoPhotonRate }
    else st2
  else st

/-- One iteration of the species loop (lines 150-201): free-free, then
free-bound (the only step that can raise), then the line branch. -/
def stepKey (species : String → SpeciesExt) (keepIons : Bool) (k : String)
    (st : SpecState) : Except RunErr SpecState :=
  match stepFB k (species k) (stepFF (species k) st) with
  | Except.error e => Except.error e
  | Except.ok st1 => Except.ok (stepLine keepIons k (species k) st1)

/-- The species loop itself: `for akey in sorted(self.Todo.keys())`.
The key list is supplied already sorted (the sort is performed by Python's
`sorted`; no claim here depends on the ordering). -/
def runKeys (species : String → SpeciesExt) (keepIons : Bool) :
    List String → SpecState → Except RunErr SpecState
  | [], st => Except.ok st
  | k :: ks, st =>
    match stepKey species keepIons k st with
    | Except.error e => Except.error e
    | Except.ok st1 => runKeys species keepIons ks st1

/-- The `em` keyword: the `0` default, a positive float, or a list/tuple
(lines 93-102 / 315-321 branch on exactly these runtime types). -/
inductive EmArg where
  | zero : EmArg
  | floatPos : ℚ → EmArg
  | seq : List ℚ → EmArg
deriving DecidableEq

/-- The `abundance` keyword of `spectrum.__init__`: `None`, a string, or a
value of any other type. -/
inductive AbundArg where
  | noneArg : AbundArg
  | str : String → AbundArg
  | nonString : AbundArg
deriving DecidableEq

/-- Which y-axis label string lines 93-101 choose (the literal LaTeX text is
irrelevant here; only the branch taken matters). -/
inductive YLabel where
  | perUnitEm : YLabel
  | withEm : YLabel
deriving DecidableEq, Inhabited

/-- Lines 93-102: normalize `em` to an array of length `NTempDen` and pick
the y-label. -/
def emNormalize (n : Nat) (em : EmArg) : Row × YLabel :=
  match em with
  | EmArg.zero => (List.replicate n 1, YLabel.perUnitEm)
  | EmArg.floatPos x => (List.replicate n x, YLabel.withEm)
  | EmArg.seq xs => (xs, YLabel.withEm)

/-- Lines 111-126: resolve `self.AbundanceName`.  `none` means the
constructor printed a complaint and returned early (non-string argument);
an unknown name goes through the GUI selector, modelled by `guiChoice`. -/
def resolveAbundance (defaultFile : String) (abundanceList : List String)
    (guiChoice : String) : AbundArg → Option String
  | AbundArg.noneArg => some defaultFile
  | AbundArg.str s => some (if s ∈ abundanceList then s else guiChoice)
  | AbundArg.nonString => none

/-- Lines 105-108: the x-axis label ('angstrom' is capitalized). -/
def xlabelOf (unit : String) : String :=
  if unit = "angstrom" then "Wavelength (Angstrom)"
  else "Wavelength (" ++ unit ++ ")"

/-- One stored result dictionary (lines 221-228).  The `em` key is absent
in the unlabeled record (line 227); the `minAbund` key is absent in the
record created together with a fresh labeled mapping (line 224), where it
is stored as a sibling of the label instead. -/
structure SpecRec where
  wavelength : Row
  intensity : SqArr
  filterName : String
  width : ℚ
  integrated : SqArr
  em : Option Row
  ions : List String
  abundanceName : String
  xlabel : String
  ylabel : YLabel
  minAbund : Option ℚ
deriving DecidableEq, Inhabited

/-- A value of the labeled `self.Spectrum` dictionary: a result record
under a label, or the stray top-level `'minAbund'` float of line 225. -/
inductive SpectrumEntry where
  | record : SpecRec → SpectrumEntry
  | num : ℚ → SpectrumEntry
deriving DecidableEq

/-- The `self.Spectrum` attribute: a single unlabeled record dictionary, a
label-keyed mapping, or an unlabeled dictionary later extended with label
keys (`self.Spectrum[label] = ...` fires whenever the attribute exists,
whatever shape it has). -/
inductive SpectrumAttr where
  | single : SpecRec → SpectrumAttr
  | labeled : List (String × SpectrumEntry) → SpectrumAttr
  | mixed : SpecRec → List (String × SpectrumEntry) → SpectrumAttr
deriving DecidableEq, Inhabited

/-- Python dict assignment `d[l] = v` on an association list: replace in
place if the key exists, else append. -/
def setKey (es : List (String × SpectrumEntry)) (l : String)
    (v : SpectrumEntry) : List (String × SpectrumEntry) :=
  match es with
  | [] => [(l, v)]
  | (k, w) :: rest =>
    if k = l then (l, v) :: rest else (k, w) :: setKey rest l v

/-- The values common to the three record-building sites. -/
structure RecParams where
  wavelength : Row
  total : SqArr
  filterName : String
  width : ℚ
  integrated : SqArr
  em : Row
  ions : List String
  abundanceName : String
  xlabel : String
  ylabel : YLabel
  minAbund : ℚ
deriving DecidableEq

/-- Line 221-222: the record stored when the label is a string and
`self.Spectrum` already exists (has both `em` and `minAbund` keys). -/
def mkLabeledRec (p : RecParams) : SpecRec :=
  { wavelength := p.wavelength, intensity := p.total,
    filterName := p.filterName, width := p.width, integrated := p.integrated,
    em := some p.em, ions := p.ions, abundanceName := p.abundanceName,
    xlabel := p.xlabel, ylabel := p.ylabel, minAbund := some p.minAbund }

/-- Line 224-225: the record stored when the label is a string and no
prior `self.Spectrum` exists — it has no `minAbund` key of its own. -/
def mkFreshRec (p : RecParams) : SpecRec :=
  { wavelength := p.wavelength, intensity := p.total,
    filterName := p.filterName, width := p.width, integrated := p.integrated,
    em := some p.em, ions := p.ions, abundanceName := p.abundanceName,
    xlabel := p.xlabel, ylabel := p.ylabel, minAbund := none }

/-- Line 227-228: the unlabeled record — it has no `em` key. -/
def mkUnlabeledRec (p : RecParams) : SpecRec :=
  { wavelength := p.wavelength, intensity := p.total,
    filterName := p.filterName, width := p.width, integrated := p.integrated,
    em := none, ions := p.ions, abundanceName := p.abundanceName,
    xlabel := p.xlabel, ylabel := p.ylabel, minAbund := some p.minAbund }

/-- Lines 219-228: store the run's result on `self.Spectrum`.  A non-string
label always replaces the attribute with a fresh unlabeled record; a string
label inserts into whatever dictionary exists, or creates a two-key
dictionary `{label: record, 'minAbund': value}` (a label literally equal to
`"minAbund"` would be overwritten by the sibling key, as in the Python dict
literal). -/
def storeResult (label : Option String) (prior : Option SpectrumAttr)
    (p : RecParams) : SpectrumAttr :=
  match label with
  | none => SpectrumAttr.single (mkUnlabeledRec p)
  | some l =>
    match prior with
    | none =>
      if l = "minAbund" then
        SpectrumAttr.labeled [("minAbund", SpectrumEntry.num p.minAbund)]
      else
        SpectrumAttr.labeled
          [(l, SpectrumEntry.record (mkFreshRec p)),
           ("minAbund", SpectrumEntry.num p.minAbund)]
    | some (SpectrumAttr.single r) =>
      SpectrumAttr.mixed r [(l, SpectrumEntry.record (mkLabeledRec p))]
    | some (SpectrumAttr.labeled es) =>
      SpectrumAttr.labeled (setKey es l (SpectrumEntry.record (mkLabeledRec p)))
    | some (SpectrumAttr.mixed r es) =>
      SpectrumAttr.mixed r (setKey es l (SpectrumEntry.record (mkLabeledRec p)))

/-- The attributes already assigned to the instance when the non-string
`abundance` check (lines 111-122) prints its complaint and returns early:
`Temperature`, `EDensity`, `NTempDen`, `Wavelength`, `Em` (lines 85-102). -/
structure EarlyAttrs where
  temperature : List ℚ
  eDensity : List ℚ
  nTempDen : Nat
  wavelength : Row
  em : Row
deriving DecidableEq

/-- Everything `spectrum.__init__` leaves on the instance after a completed
run (the fields the claims consult). -/
structure SpecResult where
  nTempDen : Nat
  em : Row
  abundanceName : String
  freeFreeI : SqArr
  freeBoundI : SqArr
  lineSpectrumI : SqArr
  twoPhotonI : SqArr
  total : SqArr
  integrated : SqArr
  ionsCalculated : List String
  finished : List String
  ionInstanceKeys : List String
  intensityTab : Option (List (String × List ℚ))
  spectrumAttr : SpectrumAttr
deriving DecidableEq, Inhabited

/-- How a call to `spectrum.__init__` can end: early `return` after the
abundance-type complaint, an uncaught exception from the species loop, or
normal completion. -/
inductive SpecOutcome where
  | earlyReturn : EarlyAttrs → SpecOutcome
  | raised : RunErr → SpecOutcome
  | done : SpecResult → SpecOutcome
deriving DecidableEq

/-- The inputs of one `spectrum.__init__` call together with the behavior
of its external collaborators.  `label` is `some` iff the keyword is a
string (the `0` default is `none`); `todoKeys` is `sorted(self.Todo.keys())`
as produced by `ionGate`; `prior` is a pre-existing `self.Spectrum`
attribute (repeated `__init__` on the same instance). -/
structure SpecEnv where
  temperature : List ℚ
  eDensity : List ℚ
  wavelength : Row
  filterName : String
  filterWidth : ℚ
  label : Option String
  minAbund : ℚ
  em : EmArg
  keepIons : Bool
  abundance : AbundArg
  defaultAbundFile : String
  abundanceList : List String
  guiChoice : String
  wavelengthUnit : String
  todoKeys : List String
  species : String → SpeciesExt
  prior : Option SpectrumAttr

/-- `spectrum.__init__` (lines 78-228).  Note line 89: `NTempDen` is simply
`max(nTemp, nDen)`; no grid-length validation of any kind is performed.
Line 209 is left-associated `+`.  The stored `'intensity'` is
`total.squeeze()`, where `total` is already squeezed (squeeze is
idempotent), so it equals `total`. -/
def specN (env : SpecEnv) : Nat :=
  max env.temperature.length env.eDensity.length

/-- Lines 203-228: assemble the stored attributes from the final loop
state. -/
def specAssemble (env : SpecEnv) (abundName : String) (st : SpecState) :
    SpecResult :=
  let nTempDen := specN env
  let emY := emNormalize nTempDen env.em
  let totalMat :=
    matAdd (matAdd (matAdd st.freeFree st.freeBound) st.lineSpectrum)
      st.twoPhoton
  let totalSq := squeeze totalMat
  let integrated := if nTempDen = 1 then totalSq else sumAxis0 totalSq
  let p : RecParams :=
    { wavelength := env.wavelength, total := totalSq,
      filterName := env.filterName, width := env.filterWidth,
      integrated := integrated, em := emY.1, ions := st.ionsCalculated,
      abundanceName := abundName, xlabel := xlabelOf env.wavelengthUnit,
      ylabel := emY.2, minAbund := env.minAbund }
  { nTempDen := nTempDen, em := emY.1, abundanceName := abundName,
    freeFreeI := squeeze st.freeFree, freeBoundI := squeeze st.freeBound,
    lineSpectrumI := squeeze st.lineSpectrum,
    twoPhotonI := squeeze st.twoPhoton,
    total := totalSq, integrated := integrated,
    ionsCalculated := st.ionsCalculated, finished := st.finished,
    ionInstanceKeys := st.ionInstanceKeys,
    intensityTab := st.intensityTab,
    spectrumAttr := storeResult env.label env.prior p }

/-- The parameter record a completed run passes to `storeResult`
(the common values of lines 221-228). -/
def recParamsOf (env : SpecEnv) (abundName : String) (st : SpecState) :
    RecParams :=
  { wavelength := env.wavelength,
    total := (specAssemble env abundName st).total,
    filterName := env.filterName, width := env.filterWidth,
    integrated := (specAssemble env abundName st).integrated,
    em := (emNormalize (specN env) env.em).1,
    ions := st.ionsCalculated, abundanceName := abundName,
    xlabel := xlabelOf env.wavelengthUnit,
    ylabel := (emNormalize (specN env) env.em).2,
    minAbund := env.minAbund }

def runSpectrum (env : SpecEnv) : SpecOutcome :=
  let nTempDen := specN env
  let nWvl := env.wavelength.length
  let emY := emNormalize nTempDen env.em
  match resolveAbundance env.defaultAbundFile env.abundanceList env.guiChoice
      env.abundance with
  | none =>
    SpecOutcome.earlyReturn
      { temperature := env.temperature, eDensity := env.eDensity,
        nTempDen := nTempDen, wavelength := env.wavelength, em := emY.1 }
  | some abundName =>
    match runKeys env.species env.keepIons env.todoKeys
        (initState nTempDen nWvl) with
    | Except.error e => SpecOutcome.raised e
    | Except.ok st => SpecOutcome.done (specAssemble env abundName st)

/-- Lines 296-313 of `bunch.__init__`: the grid-normalization branch
cascade over `tst1 = (ndens == ntemp)`, `tst2 = ntemp > 1`,
`tst3 = ndens > 1`, `tst4 = tst2 and tst3`.  Returns `self.NTempDen` if
any branch assigned it (none of them fires for unequal lengths both > 1),
together with the possibly retiled `Temperature` and `EDensity`.  In the
cross-product branch the tiled side has length 1 (forced by the branch
guards), so the numpy broadcast `np.ones_like(x)*y` is `List.replicate`
of the single value. -/
def bunchGrid (T D : List ℚ) : Option Nat × List ℚ × List ℚ :=
  let ntemp := T.length
  let ndens := D.length
  if ndens = ntemp ∧ ntemp = 1 then (some 1, T, D)
  else if ndens ≠ ntemp ∧ (ntemp > 1 ∨ ndens > 1) ∧
      ¬(ndens > 1 ∧ ntemp > 1) then
    let N := ntemp * ndens
    if ntemp = N ∧ ndens ≠ N then (some N, T, List.replicate ntemp D.headI)
    else if ndens = N ∧ ntemp ≠ N then
      (some N, List.replicate ndens T.headI, D)
    else (some N, T, D)
  else if ndens = ntemp ∧ ndens > 1 ∧ ntemp > 1 then (some ntemp, T, D)
  else (none, T, D)

/-- Lines 315-321 of `bunch.__init__`: `em` normalization.  The `0`-default
and positive-float branches read `self.NTempDen`; when no grid branch
assigned that attribute the read raises `AttributeError` (`none` here).
The list/tuple branch never touches `self.NTempDen`. -/
def bunchEm (n : Option Nat) (em : EmArg) : Option Row :=
  match em with
  | EmArg.zero => n.map (fun N => List.replicate N 1)
  | EmArg.floatPos x => n.map (fun N => List.replicate N x)
  | EmArg.seq xs => some xs

/-- Lines 324-337 of `bunch.__init__`: `if abundanceName:` — the `0`
default (and `''`) is falsy (`none`); a known name is used, an unknown one
goes through the GUI selector. -/
def resolveBunchAbundance (defaultFile : String) (abundKeys : List String)
    (guiChoice : String) : Option String → String
  | none => defaultFile
  | some s => if s ∈ abundKeys then s else guiChoice

/-- External per-ion model behavior for one key of the `bunch` loop. -/
structure BunchSpeciesExt where
  lineError : Bool
  intensityTab : List (String × List ℚ)
deriving DecidableEq

/-- The `bunch` loop state (lines 352-386): no accumulation arrays. -/
structure BunchState where
  ionsCalculated : List String
  finished : List String
  ionInstanceKeys : List String
  intensityTab : Option (List (String × List ℚ))
deriving DecidableEq, Inhabited

/-- Lists empty, `setupIntensity = 0` at loop entry. -/
def initBunchState : BunchState :=
  { ionsCalculated := [], finished := [], ionInstanceKeys := [],
    intensityTab := none }

/-- One iteration of the `bunch` species loop (lines 362-386): always
attempt the intensity computation and record the key; on success mark it
finished, optionally retain the instance key, and merge the table. -/
def bunchStep (keepIons : Bool) (species : String → BunchSpeciesExt)
    (st : BunchState) (k : String) : BunchState :=
  let sp := species k
  let st1 := { st with ionsCalculated := st.ionsCalculated ++ [k] }
  if sp.lineError = false then
    { st1 with
      finished := st1.finished ++ [k]
      ionInstanceKeys :=
        if keepIons then st1.ionInstanceKeys ++ [k] else st1.ionInstanceKeys
      intensityTab := mergeIntensity st1.intensityTab sp.intensityTab }
  else st1

/-- `for ionS in sorted(self.Todo.keys())` of `bunch.__init__`. -/
def bunchLoop (keepIons : Bool) (species : String → BunchSpeciesExt) :
    List String → BunchState → BunchState
  | [], st => st
  | k :: ks, st => bunchLoop keepIons species ks (bunchStep keepIons species st k)

/-- Inputs of one `bunch.__init__` call plus external behavior. -/
structure BunchEnv where
  temperature : List ℚ
  eDensity : List ℚ
  em : EmArg
  keepIons : Bool
  abundanceName : Option String
  defaultAbundFile : String
  abundKeys : List String
  guiChoice : String
  todoKeys : List String
  species : String → BunchSpeciesExt

/-- What `bunch.__init__` leaves on the instance after a completed run.
`nTempDen` is `none` when no grid branch assigned the attribute but the
run survived anyway (list-valued `em`). -/
structure BunchResult where
  nTempDen : Option Nat
  temperature : List ℚ
  eDensity : List ℚ
  em : Row
  abundanceName : String
  ionsCalculated : List String
  finished : List String
  ionInstanceKeys : List String
  intensityTab : Option (List (String × List ℚ))
deriving DecidableEq, Inhabited

/-- How a `bunch.__init__` call can end: the `AttributeError` from reading
the never-assigned `self.NTempDen` in the `em` branches, or completion. -/
inductive BunchOutcome where
  | attrError : BunchOutcome
  | done : BunchResult → BunchOutcome
deriving DecidableEq

/-- `bunch.__init__` (lines 282-392): grid branch cascade, `em`
normalization (the only place the grid length is ever read again), the
abundance-name resolution, then the per-species loop. -/
def bunchAssemble (env : BunchEnv) (emArr : Row) : BunchResult :=
  let g := bunchGrid env.temperature env.eDensity
  let abundName := resolveBunchAbundance env.defaultAbundFile
    env.abundKeys env.guiChoice env.abundanceName
  let st := bunchLoop env.keepIons env.species env.todoKeys initBunchState
  { nTempDen := g.1, temperature := g.2.1, eDensity := g.2.2,
    em := emArr, abundanceName := abundName,
    ionsCalculated := st.ionsCalculated, finished := st.finished,
    ionInstanceKeys := st.ionInstanceKeys,
    intensityTab := st.intensityTab }

def runBunch (env : BunchEnv) : BunchOutcome :=
  match bunchEm (bunchGrid env.temperature env.eDensity).1 env.em with
  | none => BunchOutcome.attrError
  | some emArr => BunchOutcome.done (bunchAssemble env emArr)

/-! ### Shape well-formedness predicates -/

/-- All external arrays supplied for a species have the `(n, nWvl)` grid
shape the accumulators expect. -/
def wfSpecies (n nWvl : Nat) (sp : SpeciesExt) : Prop :=
  wfMat n nWvl sp.ffEmission ∧
  (∀ e, sp.fbOutcome = FbOutcome.ok e → wfMat n nWvl e) ∧
  wfMat n nWvl sp.spectrumIntensity ∧
  wfMat n nWvl sp.twoPhotonRate

/-- The four accumulation arrays have the `(n, nWvl)` shape. -/
def wfArrays (n nWvl : Nat) (st : SpecState) : Prop :=
  wfMat n nWvl st.freeFree ∧ wfMat n nWvl st.freeBound ∧
  wfMat n nWvl st.twoPhoton ∧ wfMat n nWvl st.lineSpectrum

/-! ### Per-key predicates of the line branch -/

/-- The species is line-tagged (`'line' in self.Todo[k]`). -/
def lineTagged (species : String → SpeciesExt) (k : String) : Prop :=
  "line" ∈ (species k).procs

/-- The species is line-tagged and its intensity computation reported no
`errorMessage`: exactly the condition under which the loop marks it
finished. -/
def lineFinished (species : String → SpeciesExt) (k : String) : Prop :=
  "line" ∈ (species k).procs ∧ (species k).lineError = false

/-! ### Concrete runs used by witnesses and counterexamples -/

/-- A benign species for witness runs: hydrogen-like, all three processes
tagged, every external call succeeding, grid shape (1, 2). -/
def spW : SpeciesExt :=
  { Z := 1, ionstage := 1, dielectronic := false,
    procs := ["line", "ff", "fb"],
    ffEmission := [[1, 2]],
    fbOutcome := FbOutcome.ok [[3, 4]],
    lineError := false,
    intensityTab := [("wvl", [5])],
    spectrumIntensity := [[6, 7]],
    twoPhotonRate := [[8, 9]] }

/-- A concrete one-species `spectrum` run on a 1-point grid with two
wavelength bins. -/
def envW : SpecEnv :=
  { temperature := [1000000], eDensity := [1000000000],
    wavelength := [10, 20],
    filterName := "gaussianR", filterWidth := 1000,
    label := none, minAbund := 1/1000000, em := EmArg.zero,
    keepIons := true, abundance := AbundArg.noneArg,
    defaultAbundFile := "sun_photospheric_2015_scott",
    abundanceList := ["sun_photospheric_2015_scott"],
    guiChoice := "sun_photospheric_2015_scott",
    wavelengthUnit := "angstrom",
    todoKeys := ["h_1"],
    species := fun _ => spW,
    prior := none }

/-- The result record of the witness run. -/
def resW : SpecResult :=
  match runSpectrum envW with
  | SpecOutcome.done r => r
  | _ => default

/-- A benign species on a 2-point grid (shape (2, 2) arrays). -/
def spW2 : SpeciesExt :=
  { Z := 2, ionstage := 1, dielectronic := false,
    procs := ["line", "ff"],
    ffEmission := [[1, 2], [3, 4]],
    fbOutcome := FbOutcome.noData,
    lineError := false,
    intensityTab := [("wvl", [5])],
    spectrumIntensity := [[6, 7], [8, 9]],
    twoPhotonRate := [[1, 1], [1, 1]] }

/-- A concrete run on a 2-point grid (temperature length 2). -/
def env2W : SpecEnv :=
  { envW with
    temperature := [1000000, 2000000],
    todoKeys := ["he_1"], species := fun _ => spW2 }

def resW2 : SpecResult :=
  match runSpectrum env2W with
  | SpecOutcome.done r => r
  | _ => default

/-- A helium-like species whose line computation fails
(`errorMessage` present) but which is still free-free tagged and in the
two-photon sequence. -/
def spC2 : SpeciesExt :=
  { Z := 2, ionstage := 2, dielectronic := false,
    procs := ["line", "ff"],
    ffEmission := [[1, 2]],
    fbOutcome := FbOutcome.noData,
    lineError := true,
    intensityTab := [],
    spectrumIntensity := [[6, 7]],
    twoPhotonRate := [[8, 9]] }

def envC2 : SpecEnv :=
  { envW with todoKeys := ["he_2"], species := fun _ => spC2 }

def resC2 : SpecResult :=
  match runSpectrum envC2 with
  | SpecOutcome.done r => r
  | _ => default

/-- The state after processing the failing species of `envC2`. -/
def stC2 : SpecState :=
  match stepKey envC2.species envC2.keepIons "he_2" (initState 1 2) with
  | Except.ok s => s
  | _ => default

/-- A benign species with arrays on a 3-point grid. -/
def spC3 : SpeciesExt :=
  { Z := 1, ionstage := 1, dielectronic := false,
    procs := ["line"],
    ffEmission := [[0, 0], [0, 0], [0, 0]],
    fbOutcome := FbOutcome.noData,
    lineError := false,
    intensityTab := [],
    spectrumIntensity := [[1, 1], [1, 1], [1, 1]],
    twoPhotonRate := [[0, 0], [0, 0], [0, 0]] }

/-- A `spectrum` run whose temperature and density lengths (2 and 3) are
unequal with both exceeding 1 — the combination the claim says is
rejected. -/
def envC3 : SpecEnv :=
  { envW with
    temperature := [1, 2], eDensity := [1, 2, 3],
    species := fun _ => spC3 }

def resC3 : SpecResult :=
  match runSpectrum envC3 with
  | SpecOutcome.done r => r
  | _ => default

/-- First labeled run (`label='run1'`, no prior result). -/
def envL1 : SpecEnv := { envW with label := some "run1" }

def resL1 : SpecResult :=
  match runSpectrum envL1 with
  | SpecOutcome.done r => r
  | _ => default

/-- Second labeled run (`label='run2'`) on the same instance: the prior
`self.Spectrum` is the mapping left by the first run. -/
def envL2 : SpecEnv :=
  { envW with
    label := some "run2", prior := some resL1.spectrumAttr }

def resL2 : SpecResult :=
  match runSpectrum envL2 with
  | SpecOutcome.done r => r
  | _ => default

/-- A species whose free-bound computation signals missing data. -/
def spC6 : SpeciesExt :=
  { Z := 1, ionstage := 1, dielectronic := false,
    procs := ["line", "ff", "fb"],
    ffEmission := [[1, 2]],
    fbOutcome := FbOutcome.noData,
    lineError := false,
    intensityTab := [("wvl", [5])],
    spectrumIntensity := [[6, 7]],
    twoPhotonRate := [[8, 9]] }

def envC6 : SpecEnv :=
  { envW with species := fun _ => spC6 }

/-- The witness state after one iteration of the benign run. -/
def stW5 : SpecState :=
  match stepKey envW.species envW.keepIons "h_1" (initState 1 2) with
  | Except.ok s => s
  | _ => default

/-- The witness run with a non-string `abundance` keyword. -/
def envC9 : SpecEnv := { envW with abundance := AbundArg.nonString }

/-- A concrete `bunch` run: two species, one of which fails. -/
def benvW : BunchEnv :=
  { temperature := [1000000], eDensity := [1000000000], em := EmArg.zero,
    keepIons := true, abundanceName := none,
    defaultAbundFile := "sun_photospheric_2015_scott",
    abundKeys := ["sun_photospheric_2015_scott"],
    guiChoice := "sun_photospheric_2015_scott",
    todoKeys := ["h_1", "he_1"],
    species := fun k =>
      if k = "he_1" then { lineError := true, intensityTab := [] }
      else { lineError := false, intensityTab := [("wvl", [1])] } }

def bresW : BunchResult :=
  match runBunch benvW with
  | BunchOutcome.done r => r
  | _ => default

/-- A `bunch` run with unequal grid lengths both exceeding 1. -/
def benvC3 : BunchEnv :=
  { benvW with temperature := [1, 2], eDensity := [3, 4, 5] }

/-- A run containing one succeeding and one failing species. -/
def envC2b : SpecEnv :=
  { envW with
    todoKeys := ["h_1", "he_2"],
    species := fun k => if k = "he_2" then spC2 else spW }

def resC2b : SpecResult :=
  match runSpectrum envC2b with
  | SpecOutcome.done r => r
  | _ => default

/-- Loop invariant tying the three bookkeeping lists to the per-key
predicates: every recorded key is line-tagged, every finished key computed
without error, a recorded key that computed without error is finished,
finished keys were recorded, and retained instance keys are finished. -/
def listsInv (species : String → SpeciesExt) (st : SpecState) : Prop :=
  (∀ j ∈ st.ionsCalculated, lineTagged species j) ∧
  (∀ j ∈ st.finished, lineFinished species j) ∧
  (∀ j ∈ st.ionsCalculated, lineFinished species j → j ∈ st.finished) ∧
  (∀ j ∈ st.finished, j ∈ st.ionsCalculated) ∧
  (∀ j ∈ st.ionInstanceKeys, j ∈ st.finished)

/-! ### Array lemmas -/


theorem rowAdd_length {n : Nat} {a b : Row} (ha : a.length = n)
    (hb : b.length = n) : (rowAdd a b).length = n := by
  simp [rowAdd, ha, hb]

theorem mem_matAdd {r : Row} : ∀ {a b : Mat}, r ∈ matAdd a b →
    ∃ x, x ∈ a ∧ ∃ y, y ∈ b ∧ r = rowAdd x y := by
  intro a
  induction a with
  | nil => intro b h; simp [matAdd] at h
  | cons x xs ih =>
    intro b h
    cases b with
    | nil => simp [matAdd] at h
    | cons y ys =>
      simp only [matAdd, List.zipWith_cons_cons, List.mem_cons] at h
      rcases h with h | h
      · exact ⟨x, by simp, y, by simp, h⟩
      · obtain ⟨x', hx', y', hy', hr⟩ := ih h
        exact ⟨x', by simp [hx'], y', by simp [hy'], hr⟩

theorem matAdd_wf {m n : Nat} {a b : Mat} (ha : wfMat m n a)
    (hb : wfMat m n b) : wfMat m n (matAdd a b) := by
  refine ⟨?_, ?_⟩
  · simp [matAdd, List.length_zipWith, ha.1, hb.1]
  · intro r hr
    obtain ⟨x, hx, y, hy, hxy⟩ := mem_matAdd hr
    rw [hxy]
    exact rowAdd_length (ha.2 x hx) (hb.2 y hy)

theorem zerosMat_wf (m n : Nat) : wfMat m n (zerosMat m n) := by
  refine ⟨by simp [zerosMat], ?_⟩
  intro r hr
  have h := List.eq_of_mem_replicate (show r ∈ List.replicate m (zerosRow n) from hr)
  rw [h]
  simp [zerosRow]

/-! ### Characterizations of the loop steps -/

theorem stepFF_freeFree (sp : SpeciesExt) (st : SpecState) :
    (stepFF sp st).freeFree =
      if "ff" ∈ sp.procs then matAdd st.freeFree sp.ffEmission
      else st.freeFree := by
  unfold stepFF; split <;> simp_all

theorem stepFF_rest (sp : SpeciesExt) (st : SpecState) :
    (stepFF sp st).freeBound = st.freeBound ∧
    (stepFF sp st).twoPhoton = st.twoPhoton ∧
    (stepFF sp st).lineSpectrum = st.lineSpectrum ∧
    (stepFF sp st).ionsCalculated = st.ionsCalculated ∧
    (stepFF sp st).finished = st.finished ∧
    (stepFF sp st).ionInstanceKeys = st.ionInstanceKeys ∧
    (stepFF sp st).intensityTab = st.intensityTab := by
  unfold stepFF; split <;> simp

theorem stepFB_ok_rest {k : String} {sp : SpeciesExt} {st st' : SpecState}
    (h : stepFB k sp st = Except.ok st') :
    st'.freeFree = st.freeFree ∧
    st'.twoPhoton = st.twoPhoton ∧
    st'.lineSpectrum = st.lineSpectrum ∧
    st'.ionsCalculated = st.ionsCalculated ∧
    st'.finished = st.finished ∧
    st'.ionInstanceKeys = st.ionInstanceKeys ∧
    st'.intensityTab = st.intensityTab := by
  unfold stepFB at h
  split at h
  · cases hfb : sp.fbOutcome <;> rw [hfb] at h <;> simp at h <;>
      (try subst h) <;> simp
  · simp at h; subst h; simp

theorem stepFB_ok_freeBound {k : String} {sp : SpeciesExt} {st st' : SpecState}
    (h : stepFB k sp st = Except.ok st') :
    st'.freeBound = st.freeBound ∨
      (∃ e, sp.fbOutcome = FbOutcome.ok e ∧
        st'.freeBound = matAdd st.freeBound e) := by
  unfold stepFB at h
  split at h
  · cases hfb : sp.fbOutcome <;> rw [hfb] at h <;> simp at h
    · subst h; right; exact ⟨_, rfl, rfl⟩
    · subst h; left; rfl
  · simp at h; subst h; left; rfl

/-- A `ValueError` from the free-bound computation is swallowed: the state
passes through the `try`-block completely unchanged. -/
theorem stepFB_noData (k : String) (sp : SpeciesExt) (st : SpecState)
    (hfb : sp.fbOutcome = FbOutcome.noData) :
    stepFB k sp st = Except.ok st := by
  unfold stepFB; split <;> simp [hfb]

/-- Any other exception from the free-bound computation escapes. -/
theorem stepFB_failure (k : String) (sp : SpeciesExt) (st : SpecState)
    (hmem : "fb" ∈ sp.procs) (hfb : sp.fbOutcome = FbOutcome.failure) :
    stepFB k sp st = Except.error (RunErr.fbException k) := by
  unfold stepFB; simp [hmem, hfb]

theorem stepLine_lineSpectrum (keepIons : Bool) (k : String)
    (sp : SpeciesExt) (st : SpecState) :
    (stepLine keepIons k sp st).lineSpectrum =
      if "line" ∈ sp.procs ∧ sp.lineError = false
      then matAdd st.lineSpectrum sp.spectrumIntensity
      else st.lineSpectrum := by
  unfold stepLine
  by_cases h1 : "line" ∈ sp.procs
  · by_cases h2 : sp.lineError = false
    · by_cases h3 : (sp.Z - sp.ionstage = 0 ∨ sp.Z - sp.ionstage = 1) ∧
        sp.dielectronic = false <;> simp [h1, h2, h3]
    · by_cases h3 : (sp.Z - sp.ionstage = 0 ∨ sp.Z - sp.ionstage = 1) ∧
        sp.dielectronic = false <;> simp [h1, h2, h3]
  · simp [h1]

theorem stepLine_twoPhoton (keepIons : Bool) (k : String)
    (sp : SpeciesExt) (st : SpecState) :
    (stepLine keepIons k sp st).twoPhoton =
      if "line" ∈ sp.procs ∧
          (sp.Z - sp.ionstage = 0 ∨ sp.Z - sp.ionstage = 1) ∧
          sp.dielectronic = false
      then matAdd st.twoPhoton sp.twoPhotonRate
      else st.twoPhoton := by
  unfold stepLine
  by_cases h1 : "line" ∈ sp.procs
  · by_cases h2 : sp.lineError = false
    · by_cases h3 : (sp.Z - sp.ionstage = 0 ∨ sp.Z - sp.ionstage = 1) ∧
        sp.dielectronic = false <;> simp [h1, h2, h3]
    · by_cases h3 : (sp.Z - sp.ionstage = 0 ∨ sp.Z - sp.ionstage = 1) ∧
        sp.dielectronic = false <;> simp [h1, h2, h3]
  · simp [h1]

theorem stepLine_freeArrays (keepIons : Bool) (k : String)
    (sp : SpeciesExt) (st : SpecState) :
    (stepLine keepIons k sp st).freeFree = st.freeFree ∧
    (stepLine keepIons k sp st).freeBound = st.freeBound := by
  unfold stepLine
  by_cases h1 : "line" ∈ sp.procs
  · by_cases h2 : sp.lineError = false
    · by_cases h3 : (sp.Z - sp.ionstage = 0 ∨ sp.Z - sp.ionstage = 1) ∧
        sp.dielectronic = false <;> simp [h1, h2, h3]
    · by_cases h3 : (sp.Z - sp.ionstage = 0 ∨ sp.Z - sp.ionstage = 1) ∧
        sp.dielectronic = false <;> simp [h1, h2, h3]
  · simp [h1]

theorem stepLine_lists (keepIons : Bool) (k : String)
    (sp : SpeciesExt) (st : SpecState) :
    (stepLine keepIons k sp st).ionsCalculated =
      (if "line" ∈ sp.procs then st.ionsCalculated ++ [k]
       else st.ionsCalculated) ∧
    (stepLine keepIons k sp st).finished =
      (if "line" ∈ sp.procs ∧ sp.lineError = false then st.finished ++ [k]
       else st.finished) ∧
    (stepLine keepIons k sp st).ionInstanceKeys =
      (if "line" ∈ sp.procs ∧ sp.lineError = false ∧ keepIons = true
       then st.ionInstanceKeys ++ [k] else st.ionInstanceKeys) := by
  unfold stepLine
  by_cases h1 : "line" ∈ sp.procs
  · by_cases h2 : sp.lineError = false
    · by_cases h4 : keepIons = true
      · by_cases h3 : (sp.Z - sp.ionstage = 0 ∨ sp.Z - sp.ionstage = 1) ∧
          sp.dielectronic = false <;> simp [h1, h2, h3, h4]
      · by_cases h3 : (sp.Z - sp.ionstage = 0 ∨ sp.Z - sp.ionstage = 1) ∧
          sp.dielectronic = false <;> simp [h1, h2, h3, h4]
    · by_cases h3 : (sp.Z - sp.ionstage = 0 ∨ sp.Z - sp.ionstage = 1) ∧
        sp.dielectronic = false <;> simp [h1, h2, h3]
  · simp [h1]

/-- Unfolding a successful loop iteration into its three stages. -/
theorem stepKey_ok {species : String → SpeciesExt} {keepIons : Bool}
    {k : String} {st st' : SpecState}
    (h : stepKey species keepIons k st = Except.ok st') :
    ∃ st1, stepFB k (species k) (stepFF (species k) st) = Except.ok st1 ∧
      st' = stepLine keepIons k (species k) st1 := by
  unfold stepKey at h
  split at h
  · simp at h
  · rename_i st1 heq
    simp at h
    exact ⟨st1, heq, h.symm⟩

/-- A predicate preserved by every successful iteration is preserved by the
whole loop. -/
theorem runKeys_invariant (P : SpecState → Prop)
    (species : String → SpeciesExt) (keepIons : Bool)
    (hstep : ∀ k st st', P st →
      stepKey species keepIons k st = Except.ok st' → P st') :
    ∀ (keys : List String) (st st' : SpecState), P st →
      runKeys species keepIons keys st = Except.ok st' → P st' := by
  intro keys
  induction keys with
  | nil =>
    intro st st' hP h
    unfold runKeys at h
    simp at h
    subst h
    exact hP
  | cons k ks ih =>
    intro st st' hP h
    unfold runKeys at h
    split at h
    · simp at h
    · rename_i st1 heq
      exact ih st1 st' (hstep k st st1 hP heq) h

theorem initState_wf (n nWvl : Nat) : wfArrays n nWvl (initState n nWvl) :=
  ⟨zerosMat_wf n nWvl, zerosMat_wf n nWvl, zerosMat_wf n nWvl,
    zerosMat_wf n nWvl⟩

theorem stepKey_wf {n nWvl : Nat} {species : String → SpeciesExt}
    {keepIons : Bool} {k : String} {st st' : SpecState}
    (hsp : wfSpecies n nWvl (species k)) (hst : wfArrays n nWvl st)
    (h : stepKey species keepIons k st = Except.ok st') :
    wfArrays n nWvl st' := by
  obtain ⟨hffE, hfbE, hspE, htpE⟩ := hsp
  obtain ⟨h1, h2, h3, h4⟩ := hst
  obtain ⟨st1, hb, hl⟩ := stepKey_ok h
  have hr0 := stepFF_rest (species k) st
  have hw0 : wfArrays n nWvl (stepFF (species k) st) := by
    refine ⟨?_, ?_, ?_, ?_⟩
    · rw [stepFF_freeFree]
      split
      · exact matAdd_wf h1 hffE
      · exact h1
    · rw [hr0.1]; exact h2
    · rw [hr0.2.1]; exact h3
    · rw [hr0.2.2.1]; exact h4
  have hr1 := stepFB_ok_rest hb
  have hw1 : wfArrays n nWvl st1 := by
    refine ⟨?_, ?_, ?_, ?_⟩
    · rw [hr1.1]; exact hw0.1
    · rcases stepFB_ok_freeBound hb with hsame | ⟨e, hfb, hadd⟩
      · rw [hsame]; exact hw0.2.1
      · rw [hadd]; exact matAdd_wf hw0.2.1 (hfbE e hfb)
    · rw [hr1.2.1]; exact hw0.2.2.1
    · rw [hr1.2.2.1]; exact hw0.2.2.2
  subst hl
  refine ⟨?_, ?_, ?_, ?_⟩
  · rw [(stepLine_freeArrays _ _ _ _).1]; exact hw1.1
  · rw [(stepLine_freeArrays _ _ _ _).2]; exact hw1.2.1
  · rw [stepLine_twoPhoton]
    split
    · exact matAdd_wf hw1.2.2.1 htpE
    · exact hw1.2.2.1
  · rw [stepLine_lineSpectrum]
    split
    · exact matAdd_wf hw1.2.2.2 hspE
    · exact hw1.2.2.2

theorem runKeys_wf {n nWvl : Nat} {species : String → SpeciesExt}
    {keepIons : Bool} {keys : List String} {st st' : SpecState}
    (hsp : ∀ k, wfSpecies n nWvl (species k)) (hst : wfArrays n nWvl st)
    (h : runKeys species keepIons keys st = Except.ok st') :
    wfArrays n nWvl st' :=
  runKeys_invariant (wfArrays n nWvl) species keepIons
    (fun k _ _ hP hs => stepKey_wf (hsp k) hP hs) keys st st' hst h

theorem squeeze_single {r : Row} (h : r.length ≠ 1) :
    squeeze [r] = SqArr.one r := by
  cases r with
  | nil => rfl
  | cons x t =>
    cases t with
    | nil => simp at h
    | cons y t2 => rfl

theorem squeeze_cons2 (r1 r2 : Row) (rs : Mat) :
    squeeze (r1 :: r2 :: rs) =
      if (r1 :: r2 :: rs).all (fun r => r.length == 1)
      then SqArr.one ((r1 :: r2 :: rs).map (fun r => r.headI))
      else SqArr.many (r1 :: r2 :: rs) := by
  cases r1 with
  | nil => rfl
  | cons a t =>
    cases t with
    | nil => rfl
    | cons b t2 => rfl

theorem headI_rowAdd {a b : Row} (ha : a.length = 1) (hb : b.length = 1) :
    (rowAdd a b).headI = a.headI + b.headI := by
  obtain ⟨x, hx⟩ := List.length_eq_one.mp ha
  obtain ⟨y, hy⟩ := List.length_eq_one.mp hb
  subst hx; subst hy
  simp [rowAdd]

theorem map_headI_matAdd : ∀ {a b : Mat},
    (∀ r ∈ a, r.length = 1) → (∀ r ∈ b, r.length = 1) →
    (matAdd a b).map (fun r => r.headI) =
      rowAdd (a.map fun r => r.headI) (b.map fun r => r.headI) := by
  intro a
  induction a with
  | nil => intro b _ _; simp [matAdd, rowAdd]
  | cons x xs ih =>
    intro b ha hb
    cases b with
    | nil => simp [matAdd, rowAdd]
    | cons y ys =>
      have h1 := headI_rowAdd (ha x (by simp)) (hb y (by simp))
      have h2 := ih (fun r hr => ha r (List.mem_cons_of_mem x hr))
        (fun r hr => hb r (List.mem_cons_of_mem y hr))
      simp only [matAdd, rowAdd, List.zipWith_cons_cons, List.map_cons] at *
      rw [h1, h2]

/-- `squeeze` commutes with elementwise addition of equal-shape arrays. -/
theorem squeeze_matAdd {m n : Nat} {a b : Mat} (ha : wfMat m n a)
    (hb : wfMat m n b) :
    squeeze (matAdd a b) = sqAdd (squeeze a) (squeeze b) := by
  obtain ⟨hal, har⟩ := ha
  obtain ⟨hbl, hbr⟩ := hb
  cases a with
  | nil =>
    cases b with
    | nil => rfl
    | cons y ys => rw [← hal] at hbl; simp at hbl
  | cons x xs =>
    cases b with
    | nil => rw [← hal] at hbl; simp at hbl
    | cons y ys =>
      cases xs with
      | nil =>
        cases ys with
        | cons y2 ys2 => rw [← hal] at hbl; simp at hbl
        | nil =>
          have hx : x.length = n := har x (by simp)
          have hy : y.length = n := hbr y (by simp)
          by_cases hn : n = 1
          · subst hn
            obtain ⟨u, hu⟩ := List.length_eq_one.mp hx
            obtain ⟨v, hv⟩ := List.length_eq_one.mp hy
            subst hu; subst hv
            simp [matAdd, rowAdd, squeeze, sqAdd]
          · have hxy : (rowAdd x y).length ≠ 1 := by
              rw [rowAdd_length hx hy]; exact hn
            have hm : matAdd [x] [y] = [rowAdd x y] := by
              simp [matAdd]
            rw [hm, squeeze_single hxy, squeeze_single (hx ▸ hn),
              squeeze_single (hy ▸ hn)]
            rfl
      | cons x2 xs2 =>
        cases ys with
        | nil => rw [← hal] at hbl; simp at hbl
        | cons y2 ys2 =>
          have hm : matAdd (x :: x2 :: xs2) (y :: y2 :: ys2) =
              rowAdd x y :: rowAdd x2 y2 :: matAdd xs2 ys2 := by
            simp [matAdd]
          by_cases hn : n = 1
          · subst hn
            have hall1 : ∀ r ∈ x :: x2 :: xs2, r.length = 1 := har
            have hall2 : ∀ r ∈ y :: y2 :: ys2, r.length = 1 := hbr
            have hallAdd : ∀ r ∈ matAdd (x :: x2 :: xs2) (y :: y2 :: ys2),
                r.length = 1 := by
              intro r hr
              obtain ⟨p, hp, q, hq, hpq⟩ := mem_matAdd hr
              rw [hpq]
              exact rowAdd_length (hall1 p hp) (hall2 q hq)
            have ht1 : (x :: x2 :: xs2).all (fun r => r.length == 1) = true := by
              simp only [List.all_eq_true, beq_iff_eq]
              exact hall1
            have ht2 : (y :: y2 :: ys2).all (fun r => r.length == 1) = true := by
              simp only [List.all_eq_true, beq_iff_eq]
              exact hall2
            have ht3 : (rowAdd x y :: rowAdd x2 y2 :: matAdd xs2 ys2).all
                (fun r => r.length == 1) = true := by
              simp only [List.all_eq_true, beq_iff_eq]
              rw [← hm]
              exact hallAdd
            rw [hm, squeeze_cons2, squeeze_cons2, squeeze_cons2, ht1, ht2, ht3]
            simp only [if_true]
            rw [← hm, map_headI_matAdd hall1 hall2]
            rfl
          · have hx : x.length = n := har x (by simp)
            have hy : y.length = n := hbr y (by simp)
            have ht1 : (x :: x2 :: xs2).all (fun r => r.length == 1) = false := by
              simp only [List.all_cons, Bool.and_eq_false_iff]
              left
              simp only [hx, beq_eq_false_iff_ne, ne_eq]
              exact hn
            have ht2 : (y :: y2 :: ys2).all (fun r => r.length == 1) = false := by
              simp only [List.all_cons, Bool.and_eq_false_iff]
              left
              simp only [hy, beq_eq_false_iff_ne, ne_eq]
              exact hn
            have ht3 : (rowAdd x y :: rowAdd x2 y2 :: matAdd xs2 ys2).all
                (fun r => r.length == 1) = false := by
              simp only [List.all_cons, Bool.and_eq_false_iff]
              left
              simp only [rowAdd_length hx hy, beq_eq_false_iff_ne, ne_eq]
              exact hn
            rw [hm, squeeze_cons2, squeeze_cons2, squeeze_cons2, ht1, ht2, ht3]
            simp only [Bool.false_eq_true, if_false]
            rw [← hm]
            rfl

theorem rowAdd_getD : ∀ {a b : Row} {j : Nat}, j < a.length → j < b.length →
    (rowAdd a b).getD j 0 = a.getD j 0 + b.getD j 0 := by
  intro a
  induction a with
  | nil => intro b j hja _; simp at hja
  | cons x xs ih =>
    intro b j hja hjb
    cases b with
    | nil => simp at hjb
    | cons y ys =>
      cases j with
      | zero => simp [rowAdd]
      | succ j' =>
        simp only [rowAdd, List.zipWith_cons_cons, List.getD_cons_succ]
        exact ih (by simpa using hja) (by simpa using hjb)

theorem foldl_rowAdd_length {n : Nat} : ∀ (rs : Mat) (r : Row),
    r.length = n → (∀ row ∈ rs, row.length = n) →
    (rs.foldl rowAdd r).length = n := by
  intro rs
  induction rs with
  | nil => intro r hr _; simpa using hr
  | cons s ss ih =>
    intro r hr hall
    simp only [List.foldl_cons]
    exact ih (rowAdd r s) (rowAdd_length hr (hall s (by simp)))
      (fun row hrow => hall row (List.mem_cons_of_mem s hrow))

/-- `numpy.sum(axis=0)` computed entrywise: a fold of `rowAdd` is, in each
column, the sum of that column. -/
theorem foldl_rowAdd_getD {n : Nat} : ∀ (rs : Mat) (r : Row),
    r.length = n → (∀ row ∈ rs, row.length = n) → ∀ j, j < n →
    (rs.foldl rowAdd r).getD j 0 =
      r.getD j 0 + (rs.map (fun row => row.getD j 0)).sum := by
  intro rs
  induction rs with
  | nil => intro r hr _ j hj; simp
  | cons s ss ih =>
    intro r hr hall j hj
    simp only [List.foldl_cons, List.map_cons, List.sum_cons]
    rw [ih (rowAdd r s) (rowAdd_length hr (hall s (by simp)))
      (fun row hrow => hall row (List.mem_cons_of_mem s hrow)) j hj]
    rw [rowAdd_getD (by rw [hr]; exact hj) (by rw [hall s (by simp)]; exact hj)]
    ring

/-! ### The claims -/

theorem specAssemble_total (env : SpecEnv) (a : String) (st : SpecState) :
    (specAssemble env a st).total =
      squeeze (matAdd (matAdd (matAdd st.freeFree st.freeBound)
        st.lineSpectrum) st.twoPhoton) := rfl

theorem specAssemble_mechs (env : SpecEnv) (a : String) (st : SpecState) :
    (specAssemble env a st).freeFreeI = squeeze st.freeFree ∧
    (specAssemble env a st).freeBoundI = squeeze st.freeBound ∧
    (specAssemble env a st).lineSpectrumI = squeeze st.lineSpectrum ∧
    (specAssemble env a st).twoPhotonI = squeeze st.twoPhoton :=
  ⟨rfl, rfl, rfl, rfl⟩

theorem specAssemble_integrated (env : SpecEnv) (a : String) (st : SpecState) :
    (specAssemble env a st).integrated =
      (if specN env = 1
       then (specAssemble env a st).total
       else sumAxis0 (specAssemble env a st).total) := rfl

theorem specAssemble_lists (env : SpecEnv) (a : String) (st : SpecState) :
    (specAssemble env a st).ionsCalculated = st.ionsCalculated ∧
    (specAssemble env a st).finished = st.finished ∧
    (specAssemble env a st).ionInstanceKeys = st.ionInstanceKeys :=
  ⟨rfl, rfl, rfl⟩

theorem specAssemble_attr (env : SpecEnv) (a : String) (st : SpecState) :
    (specAssemble env a st).spectrumAttr =
      storeResult env.label env.prior (recParamsOf env a st) := rfl

/-- Extracting the final loop state from a completed run. -/
theorem runSpectrum_done {env : SpecEnv} {r : SpecResult}
    (hdone : runSpectrum env = SpecOutcome.done r) :
    ∃ abundName st,
      resolveAbundance env.defaultAbundFile env.abundanceList env.guiChoice
        env.abundance = some abundName ∧
      runKeys env.species env.keepIons env.todoKeys
        (initState (specN env) env.wavelength.length) = Except.ok st ∧
      r = specAssemble env abundName st := by
  unfold runSpectrum at hdone
  split at hdone
  · simp at hdone
  · dsimp only at hdone
    split at hdone
    · simp at hdone
    · rename_i st hrun
      injection hdone with hr
      exact ⟨_, st, by assumption, hrun, hr.symm⟩

/-- C1: for every completed `spectrum` run, the `Total` array is the
elementwise sum `FreeFree + FreeBound + LineSpectrum + TwoPhoton` of the
four accumulated mechanism arrays (exactly — a definitional sum), and when
`NTempDen = 1` (with at least two wavelength bins) it is squeezed to a 1-d
array of length `nWvl`. -/
theorem c1_total_equals_mechanism_sum (env : SpecEnv) (r : SpecResult)
    (hwf : ∀ k, wfSpecies (specN env) env.wavelength.length (env.species k))
    (hdone : runSpectrum env = SpecOutcome.done r) :
    r.total = sqAdd (sqAdd (sqAdd r.freeFreeI r.freeBoundI) r.lineSpectrumI)
      r.twoPhotonI ∧
    (specN env = 1 → 2 ≤ env.wavelength.length →
      ∃ v, r.total = SqArr.one v ∧ v.length = env.wavelength.length) := by
  obtain ⟨abundName, st, _, hrun, hr⟩ := runSpectrum_done hdone
  subst hr
  have hwfst : wfArrays (specN env) env.wavelength.length st :=
    runKeys_wf hwf (initState_wf _ _) hrun
  obtain ⟨w1, w2, w3, w4⟩ := hwfst
  have w12 := matAdd_wf w1 w2
  have w124 := matAdd_wf w12 w4
  have w1243 := matAdd_wf w124 w3
  have hm := specAssemble_mechs env abundName st
  constructor
  · rw [specAssemble_total, hm.1, hm.2.1, hm.2.2.1, hm.2.2.2]
    rw [squeeze_matAdd w124 w3, squeeze_matAdd w12 w4,
      squeeze_matAdd w1 w2]
  · intro hN hWvl
    rw [hN] at w1243
    obtain ⟨row, hrow⟩ := List.length_eq_one.mp w1243.1
    have hrl : row.length = env.wavelength.length :=
      w1243.2 row (by rw [hrow]; simp)
    refine ⟨row, ?_, hrl⟩
    rw [specAssemble_total, hrow, squeeze_single (by rw [hrl]; omega)]

theorem envW_wf :
    ∀ k, wfSpecies (specN envW) envW.wavelength.length (envW.species k) := by
  intro k
  show wfSpecies 1 2 spW
  refine ⟨by simp [wfMat, spW], ?_, by simp [wfMat, spW], by simp [wfMat, spW]⟩
  intro e he
  injection he with h
  rw [← h]
  simp [wfMat]

theorem envW_done : runSpectrum envW = SpecOutcome.done resW := rfl

/-- Witness for C1 at the concrete run `envW`. -/
theorem c1_total_equals_mechanism_sum_witness :
    resW.total =
      sqAdd (sqAdd (sqAdd resW.freeFreeI resW.freeBoundI) resW.lineSpectrumI)
        resW.twoPhotonI ∧
    (specN envW = 1 → 2 ≤ envW.wavelength.length →
      ∃ v, resW.total = SqArr.one v ∧ v.length = envW.wavelength.length) :=
  c1_total_equals_mechanism_sum envW resW envW_wf envW_done

/-- C8: for every completed `spectrum` run, the integrated profile equals
the `Total` array itself when the grid length is 1, and otherwise (with at
least two wavelength bins) equals `Total` summed over the grid (first)
dimension — one value per wavelength bin. -/
theorem c8_integrated_profile (env : SpecEnv) (r : SpecResult)
    (hwf : ∀ k, wfSpecies (specN env) env.wavelength.length (env.species k))
    (hdone : runSpectrum env = SpecOutcome.done r) :
    (specN env = 1 → r.integrated = r.total) ∧
    (2 ≤ specN env → 2 ≤ env.wavelength.length →
      ∃ m v, r.total = SqArr.many m ∧ r.integrated = SqArr.one v ∧
        v.length = env.wavelength.length ∧
        ∀ j, j < env.wavelength.length →
          v.getD j 0 = (m.map (fun row => row.getD j 0)).sum) := by
  obtain ⟨abundName, st, _, hrun, hr⟩ := runSpectrum_done hdone
  subst hr
  have hwfst : wfArrays (specN env) env.wavelength.length st :=
    runKeys_wf hwf (initState_wf _ _) hrun
  obtain ⟨w1, w2, w3, w4⟩ := hwfst
  have w1243 := matAdd_wf (matAdd_wf (matAdd_wf w1 w2) w4) w3
  constructor
  · intro hN
    rw [specAssemble_integrated, if_pos hN]
  · intro hN hWvl
    have hlen := w1243.1
    have hrows := w1243.2
    cases htm : matAdd (matAdd (matAdd st.freeFree st.freeBound)
        st.lineSpectrum) st.twoPhoton with
    | nil => rw [htm] at hlen; simp at hlen; omega
    | cons r1 rest =>
      cases rest with
      | nil => rw [htm] at hlen; simp at hlen; omega
      | cons r2 rs =>
        rw [htm] at hrows
        have h1l : r1.length = env.wavelength.length := hrows r1 (by simp)
        have hallF : (r1 :: r2 :: rs).all (fun row => row.length == 1) =
            false := by
          simp only [List.all_cons, Bool.and_eq_false_iff]
          left
          simp only [h1l, beq_eq_false_iff_ne, ne_eq]
          omega
        have htot : (specAssemble env abundName st).total =
            SqArr.many (r1 :: r2 :: rs) := by
          rw [specAssemble_total, htm, squeeze_cons2, hallF]
          simp
        have hint : (specAssemble env abundName st).integrated =
            SqArr.one ((r2 :: rs).foldl rowAdd r1) := by
          rw [specAssemble_integrated, if_neg (by omega), htot]
          rfl
        refine ⟨r1 :: r2 :: rs, (r2 :: rs).foldl rowAdd r1, htot, hint,
          ?_, ?_⟩
        · exact foldl_rowAdd_length (r2 :: rs) r1 h1l
            (fun row hrow => hrows row (List.mem_cons_of_mem r1 hrow))
        · intro j hj
          rw [foldl_rowAdd_getD (r2 :: rs) r1 h1l
            (fun row hrow => hrows row (List.mem_cons_of_mem r1 hrow)) j hj]
          simp

/-- Witness for C8 at the concrete two-point-grid run `env2W`. -/
theorem c8_integrated_profile_witness :
    (specN env2W = 1 → resW2.integrated = resW2.total) ∧
    (2 ≤ specN env2W → 2 ≤ env2W.wavelength.length →
      ∃ m v, resW2.total = SqArr.many m ∧ resW2.integrated = SqArr.one v ∧
        v.length = env2W.wavelength.length ∧
        ∀ j, j < env2W.wavelength.length →
          v.getD j 0 = (m.map (fun row => row.getD j 0)).sum) :=
  c8_integrated_profile env2W resW2
    (by
      intro k
      show wfSpecies 2 2 spW2
      refine ⟨by simp [wfMat, spW2], ?_, by simp [wfMat, spW2],
        by simp [wfMat, spW2]⟩
      intro e he
      exact absurd he (by simp [spW2]))
    rfl

/-- The three bookkeeping lists across one whole successful loop
iteration. -/
theorem stepKey_lists {species : String → SpeciesExt} {keepIons : Bool}
    {k : String} {st st' : SpecState}
    (h : stepKey species keepIons k st = Except.ok st') :
    st'.ionsCalculated =
      (if "line" ∈ (species k).procs then st.ionsCalculated ++ [k]
       else st.ionsCalculated) ∧
    st'.finished =
      (if "line" ∈ (species k).procs ∧ (species k).lineError = false
       then st.finished ++ [k] else st.finished) ∧
    st'.ionInstanceKeys =
      (if "line" ∈ (species k).procs ∧ (species k).lineError = false ∧
          keepIons = true
       then st.ionInstanceKeys ++ [k] else st.ionInstanceKeys) := by
  obtain ⟨st1, hb, hl⟩ := stepKey_ok h
  subst hl
  have hffr := stepFF_rest (species k) st
  have hfbr := stepFB_ok_rest hb
  have hll := stepLine_lists keepIons k (species k) st1
  have hc : st1.ionsCalculated = st.ionsCalculated := by
    rw [hfbr.2.2.2.1, hffr.2.2.2.1]
  have hf : st1.finished = st.finished := by
    rw [hfbr.2.2.2.2.1, hffr.2.2.2.2.1]
  have hi : st1.ionInstanceKeys = st.ionInstanceKeys := by
    rw [hfbr.2.2.2.2.2.1, hffr.2.2.2.2.2.1]
  rw [hll.1, hll.2.1, hll.2.2, hc, hf, hi]
  exact ⟨rfl, rfl, rfl⟩

/-- The LineSpectrum accumulator across one whole successful loop
iteration: it gains the convolved spectrum exactly for a finishing
species. -/
theorem stepKey_lineSpectrum {species : String → SpeciesExt}
    {keepIons : Bool} {k : String} {st st' : SpecState}
    (h : stepKey species keepIons k st = Except.ok st') :
    st'.lineSpectrum =
      (if "line" ∈ (species k).procs ∧ (species k).lineError = false
       then matAdd st.lineSpectrum (species k).spectrumIntensity
       else st.lineSpectrum) := by
  obtain ⟨st1, hb, hl⟩ := stepKey_ok h
  subst hl
  have h1 : st1.lineSpectrum = st.lineSpectrum := by
    rw [(stepFB_ok_rest hb).2.2.1, (stepFF_rest (species k) st).2.2.1]
  rw [stepLine_lineSpectrum, h1]

theorem stepKey_listsInv {species : String → SpeciesExt} {keepIons : Bool}
    {k : String} {st st' : SpecState}
    (h : stepKey species keepIons k st = Except.ok st')
    (hP : listsInv species st) : listsInv species st' := by
  obtain ⟨hl1, hl2, hl3⟩ := stepKey_lists h
  obtain ⟨p1, p2, p3, p4, p5⟩ := hP
  by_cases h1 : "line" ∈ (species k).procs
  · by_cases h2 : (species k).lineError = false
    · rw [if_pos h1] at hl1
      rw [if_pos ⟨h1, h2⟩] at hl2
      refine ⟨?_, ?_, ?_, ?_, ?_⟩
      · intro j hj
        rw [hl1] at hj
        rcases List.mem_append.mp hj with hj | hj
        · exact p1 j hj
        · rw [List.mem_singleton.mp hj]; exact h1
      · intro j hj
        rw [hl2] at hj
        rcases List.mem_append.mp hj with hj | hj
        · exact p2 j hj
        · rw [List.mem_singleton.mp hj]; exact ⟨h1, h2⟩
      · intro j hj hfin
        rw [hl1] at hj
        rw [hl2]
        rcases List.mem_append.mp hj with hj | hj
        · exact List.mem_append_left _ (p3 j hj hfin)
        · exact List.mem_append_right _ hj
      · intro j hj
        rw [hl2] at hj
        rw [hl1]
        rcases List.mem_append.mp hj with hj | hj
        · exact List.mem_append_left _ (p4 j hj)
        · exact List.mem_append_right _ hj
      · intro j hj
        rw [hl2]
        by_cases hki : keepIons = true
        · rw [if_pos ⟨h1, h2, hki⟩] at hl3
          rw [hl3] at hj
          rcases List.mem_append.mp hj with hj | hj
          · exact List.mem_append_left _ (p5 j hj)
          · exact List.mem_append_right _ hj
        · rw [if_neg (fun hc => hki hc.2.2)] at hl3
          rw [hl3] at hj
          exact List.mem_append_left _ (p5 j hj)
    · rw [if_pos h1] at hl1
      rw [if_neg (fun hc => h2 hc.2)] at hl2
      rw [if_neg (fun hc => h2 hc.2.1)] at hl3
      refine ⟨?_, ?_, ?_, ?_, ?_⟩
      · intro j hj
        rw [hl1] at hj
        rcases List.mem_append.mp hj with hj | hj
        · exact p1 j hj
        · rw [List.mem_singleton.mp hj]; exact h1
      · intro j hj
        rw [hl2] at hj
        exact p2 j hj
      · intro j hj hfin
        rw [hl1] at hj
        rw [hl2]
        rcases List.mem_append.mp hj with hj | hj
        · exact p3 j hj hfin
        · exact absurd hfin.2 (by rw [List.mem_singleton.mp hj]; exact h2)
      · intro j hj
        rw [hl2] at hj
        rw [hl1]
        exact List.mem_append_left _ (p4 j hj)
      · intro j hj
        rw [hl3] at hj
        rw [hl2]
        exact p5 j hj
  · rw [if_neg h1] at hl1
    rw [if_neg (fun hc => h1 hc.1)] at hl2
    rw [if_neg (fun hc => h1 hc.1)] at hl3
    refine ⟨?_, ?_, ?_, ?_, ?_⟩
    · intro j hj; rw [hl1] at hj; exact p1 j hj
    · intro j hj; rw [hl2] at hj; exact p2 j hj
    · intro j hj hfin; rw [hl1] at hj; rw [hl2]; exact p3 j hj hfin
    · intro j hj; rw [hl2] at hj; rw [hl1]; exact p4 j hj
    · intro j hj; rw [hl3] at hj; rw [hl2]; exact p5 j hj

theorem runKeys_listsInv {species : String → SpeciesExt} {keepIons : Bool}
    {keys : List String} {st st' : SpecState}
    (h : runKeys species keepIons keys st = Except.ok st')
    (hP : listsInv species st) : listsInv species st' :=
  runKeys_invariant (listsInv species) species keepIons
    (fun _ _ _ hPs hs => stepKey_listsInv hs hPs) keys st st' hP h

theorem listsInv_init (species : String → SpeciesExt) (n nWvl : Nat) :
    listsInv species (initState n nWvl) := by
  refine ⟨?_, ?_, ?_, ?_, ?_⟩ <;> intro j hj <;> simp [initState] at hj

/-- C2 (amended): for every completed `spectrum` run the `Finished` list is
a subset of `IonsCalculated`; the loop iteration of every finished species
added its convolved spectrum into the running LineSpectrum array; and the
iteration of a species in `IonsCalculated \ Finished` left LineSpectrum
unchanged.  (The original claim further said such species contribute
nothing to FreeFree, FreeBound or TwoPhoton; the code adds free-free,
available free-bound and H/He-like two-photon contributions regardless of
the line failure, so that part is dropped.) -/
theorem c2_finished_line_contributions (env : SpecEnv) (r : SpecResult)
    (hdone : runSpectrum env = SpecOutcome.done r) :
    (∀ k, k ∈ r.finished → k ∈ r.ionsCalculated) ∧
    (∀ k, k ∈ r.finished → ∀ st st',
      stepKey env.species env.keepIons k st = Except.ok st' →
      st'.lineSpectrum =
        matAdd st.lineSpectrum (env.species k).spectrumIntensity) ∧
    (∀ k, k ∈ r.ionsCalculated → k ∉ r.finished → ∀ st st',
      stepKey env.species env.keepIons k st = Except.ok st' →
      st'.lineSpectrum = st.lineSpectrum) := by
  obtain ⟨abundName, st, _, hrun, hr⟩ := runSpectrum_done hdone
  subst hr
  have hlists := specAssemble_lists env abundName st
  obtain ⟨p1, p2, p3, p4, p5⟩ :=
    runKeys_listsInv hrun (listsInv_init env.species _ _)
  rw [hlists.1, hlists.2.1]
  refine ⟨p4, ?_, ?_⟩
  · intro k hk st0 st0' hs
    obtain ⟨ht, he⟩ := p2 k hk
    rw [stepKey_lineSpectrum hs, if_pos ⟨ht, he⟩]
  · intro k hkc hkf st0 st0' hs
    have hnfin : ¬("line" ∈ (env.species k).procs ∧
        (env.species k).lineError = false) := fun hf => hkf (p3 k hkc hf)
    rw [stepKey_lineSpectrum hs, if_neg hnfin]

/-- Witness for the amended C2 at the concrete mixed run `envC2b`
(one finishing species, one failing species). -/
theorem c2_finished_line_contributions_witness :
    (∀ k, k ∈ resC2b.finished → k ∈ resC2b.ionsCalculated) ∧
    (∀ k, k ∈ resC2b.finished → ∀ st st',
      stepKey envC2b.species envC2b.keepIons k st = Except.ok st' →
      st'.lineSpectrum =
        matAdd st.lineSpectrum (envC2b.species k).spectrumIntensity) ∧
    (∀ k, k ∈ resC2b.ionsCalculated → k ∉ resC2b.finished → ∀ st st',
      stepKey envC2b.species envC2b.keepIons k st = Except.ok st' →
      st'.lineSpectrum = st.lineSpectrum) :=
  c2_finished_line_contributions envC2b resC2b rfl

/-- The free-free accumulator across one whole successful loop
iteration. -/
theorem stepKey_freeFree {species : String → SpeciesExt} {keepIons : Bool}
    {k : String} {st st' : SpecState}
    (h : stepKey species keepIons k st = Except.ok st') :
    st'.freeFree =
      (if "ff" ∈ (species k).procs
       then matAdd st.freeFree (species k).ffEmission
       else st.freeFree) := by
  obtain ⟨st1, hb, hl⟩ := stepKey_ok h
  subst hl
  rw [(stepLine_freeArrays keepIons k (species k) st1).1,
    (stepFB_ok_rest hb).1, stepFF_freeFree]

/-- The two-photon accumulator across one whole successful loop
iteration. -/
theorem stepKey_twoPhoton {species : String → SpeciesExt} {keepIons : Bool}
    {k : String} {st st' : SpecState}
    (h : stepKey species keepIons k st = Except.ok st') :
    st'.twoPhoton =
      (if "line" ∈ (species k).procs ∧
          ((species k).Z - (species k).ionstage = 0 ∨
           (species k).Z - (species k).ionstage = 1) ∧
          (species k).dielectronic = false
       then matAdd st.twoPhoton (species k).twoPhotonRate
       else st.twoPhoton) := by
  obtain ⟨st1, hb, hl⟩ := stepKey_ok h
  subst hl
  have h1 : st1.twoPhoton = st.twoPhoton := by
    rw [(stepFB_ok_rest hb).2.1, (stepFF_rest (species k) st).2.1]
  rw [stepLine_twoPhoton, h1]

/-- C2 counterexample: in the concrete run `envC2` the species `he_2` is
attempted (`IonsCalculated`) but not finished, yet its loop iteration
changed both the FreeFree and the TwoPhoton accumulators from their zero
values, and the final stored arrays are non-zero — contradicting the claim
that species in `IonsCalculated \ Finished` contribute nothing to any of
the four arrays. -/
theorem c2_counterexample :
    runSpectrum envC2 = SpecOutcome.done resC2 ∧
    resC2.ionsCalculated = ["he_2"] ∧
    resC2.finished = [] ∧
    stepKey envC2.species envC2.keepIons "he_2" (initState 1 2) =
      Except.ok stC2 ∧
    (initState 1 2).freeFree = [[0, 0]] ∧
    (initState 1 2).twoPhoton = [[0, 0]] ∧
    stC2.freeFree = [[1, 2]] ∧
    stC2.twoPhoton = [[8, 9]] ∧
    ([[1, 2]] : Mat) ≠ [[0, 0]] ∧ ([[8, 9]] : Mat) ≠ [[0, 0]] ∧
    resC2.freeFreeI = SqArr.one [1, 2] ∧
    resC2.twoPhotonI = SqArr.one [8, 9] := by
  have hstep : stepKey envC2.species envC2.keepIons "he_2" (initState 1 2) =
      Except.ok stC2 := rfl
  have hff : stC2.freeFree = [[1, 2]] := by
    rw [stepKey_freeFree hstep,
      if_pos (show "ff" ∈ (envC2.species "he_2").procs by decide)]
    show matAdd [[0, 0]] [[1, 2]] = [[1, 2]]
    simp [matAdd, rowAdd]
  have htp : stC2.twoPhoton = [[8, 9]] := by
    have hc : "line" ∈ (envC2.species "he_2").procs ∧
        ((envC2.species "he_2").Z - (envC2.species "he_2").ionstage = 0 ∨
         (envC2.species "he_2").Z - (envC2.species "he_2").ionstage = 1) ∧
        (envC2.species "he_2").dielectronic = false :=
      ⟨by decide, Or.inl (by decide), by decide⟩
    rw [stepKey_twoPhoton hstep, if_pos hc]
    show matAdd [[0, 0]] [[8, 9]] = [[8, 9]]
    simp [matAdd, rowAdd]
  have hffI : resC2.freeFreeI = squeeze stC2.freeFree := rfl
  have htpI : resC2.twoPhotonI = squeeze stC2.twoPhoton := rfl
  refine ⟨rfl, rfl, rfl, hstep, rfl, rfl, hff, htp, by simp, by simp,
    ?_, ?_⟩
  · rw [hffI, hff]; rfl
  · rw [htpI, htp]; rfl

/-- C5: for every species processed in the line branch of the spectrum
loop, the two-photon contribution is requested and added into the running
TwoPhoton array iff `Z - ionstage ∈ {0, 1}` and the species is not a
dielectronic-satellite variant.  The right-hand side does not involve
`lineError`, so the addition happens independently of whether the line
intensity computation succeeded. -/
theorem c5_two_photon_condition (species : String → SpeciesExt)
    (keepIons : Bool) (k : String) (st st' : SpecState)
    (hline : "line" ∈ (species k).procs)
    (hok : stepKey species keepIons k st = Except.ok st') :
    st'.twoPhoton =
      (if ((species k).Z - (species k).ionstage = 0 ∨
           (species k).Z - (species k).ionstage = 1) ∧
          (species k).dielectronic = false
       then matAdd st.twoPhoton (species k).twoPhotonRate
       else st.twoPhoton) := by
  rw [stepKey_twoPhoton hok]
  by_cases hc : ((species k).Z - (species k).ionstage = 0 ∨
      (species k).Z - (species k).ionstage = 1) ∧
      (species k).dielectronic = false
  · rw [if_pos ⟨hline, hc⟩, if_pos hc]
  · rw [if_neg (fun h => hc h.2), if_neg hc]

/-- Witness for C5 at the benign species of `envW`. -/
theorem c5_two_photon_condition_witness :
    stW5.twoPhoton =
      (if ((envW.species "h_1").Z - (envW.species "h_1").ionstage = 0 ∨
           (envW.species "h_1").Z - (envW.species "h_1").ionstage = 1) ∧
          (envW.species "h_1").dielectronic = false
       then matAdd (initState 1 2).twoPhoton
         (envW.species "h_1").twoPhotonRate
       else (initState 1 2).twoPhoton) :=
  c5_two_photon_condition envW.species envW.keepIons "h_1" (initState 1 2)
    stW5 (by decide) rfl

/-- A single free-bound failure anywhere in the key list aborts the whole
loop with an exception, whatever the current state is. -/
theorem runKeys_error_of_failure {species : String → SpeciesExt}
    {keepIons : Bool} {k : String}
    (hfb : "fb" ∈ (species k).procs)
    (hfail : (species k).fbOutcome = FbOutcome.failure) :
    ∀ (keys : List String), k ∈ keys → ∀ st,
      ∃ e, runKeys species keepIons keys st = Except.error e := by
  intro keys
  induction keys with
  | nil => intro h; simp at h
  | cons k0 ks ih =>
    intro hmem st
    unfold runKeys
    cases hs : stepKey species keepIons k0 st with
    | error e => exact ⟨e, rfl⟩
    | ok st1 =>
      rcases List.mem_cons.mp hmem with heq | hmem'
      · exfalso
        subst heq
        unfold stepKey at hs
        rw [stepFB_failure _ _ _ hfb hfail] at hs
        simp at hs
      · obtain ⟨e, he⟩ := ih hmem' st1
        exact ⟨e, he⟩

/-- C6: for a species tagged with the free-bound process, a `ValueError`
from the free-bound computation (missing data) is swallowed: the state
passes through the free-bound stage completely unchanged (FreeBound
untouched, no list entry removed) and the iteration continues with the
line branch as usual.  Any other exception from the free-bound computation
escapes the iteration, and if the species is in the gated key list the
whole run aborts instead of completing. -/
theorem c6_free_bound_error_policy (env : SpecEnv) (k : String)
    (st : SpecState) (hfb : "fb" ∈ (env.species k).procs) :
    ((env.species k).fbOutcome = FbOutcome.noData →
      stepFB k (env.species k) (stepFF (env.species k) st) =
        Except.ok (stepFF (env.species k) st) ∧
      stepKey env.species env.keepIons k st =
        Except.ok (stepLine env.keepIons k (env.species k)
          (stepFF (env.species k) st))) ∧
    ((env.species k).fbOutcome = FbOutcome.failure →
      stepKey env.species env.keepIons k st =
        Except.error (RunErr.fbException k) ∧
      (k ∈ env.todoKeys → ∀ r, runSpectrum env ≠ SpecOutcome.done r)) := by
  constructor
  · intro hnd
    have h1 := stepFB_noData k (env.species k)
      (stepFF (env.species k) st) hnd
    refine ⟨h1, ?_⟩
    unfold stepKey
    rw [h1]
  · intro hfail
    have h1 := stepFB_failure k (env.species k)
      (stepFF (env.species k) st) hfb hfail
    constructor
    · unfold stepKey
      rw [h1]
    · intro hmem r hdone
      obtain ⟨a, stf, _, hrun, _⟩ := runSpectrum_done hdone
      obtain ⟨e, he⟩ := runKeys_error_of_failure hfb hfail env.todoKeys hmem
        (initState (specN env) env.wavelength.length)
      rw [hrun] at he
      exact absurd he (by simp)

/-- Witness for C6 at the concrete run `envC6` (whose species signals
missing free-bound data). -/
theorem c6_free_bound_error_policy_witness :
    ((envC6.species "h_1").fbOutcome = FbOutcome.noData →
      stepFB "h_1" (envC6.species "h_1")
          (stepFF (envC6.species "h_1") (initState 1 2)) =
        Except.ok (stepFF (envC6.species "h_1") (initState 1 2)) ∧
      stepKey envC6.species envC6.keepIons "h_1" (initState 1 2) =
        Except.ok (stepLine envC6.keepIons "h_1" (envC6.species "h_1")
          (stepFF (envC6.species "h_1") (initState 1 2)))) ∧
    ((envC6.species "h_1").fbOutcome = FbOutcome.failure →
      stepKey envC6.species envC6.keepIons "h_1" (initState 1 2) =
        Except.error (RunErr.fbException "h_1") ∧
      ("h_1" ∈ envC6.todoKeys →
        ∀ r, runSpectrum envC6 ≠ SpecOutcome.done r)) :=
  c6_free_bound_error_policy envC6 "h_1" (initState 1 2) (by decide)

theorem bunchGrid_one {T D : List ℚ} (hT : T.length = 1)
    (hD : D.length = 1) : bunchGrid T D = (some 1, T, D) := by
  unfold bunchGrid
  rw [if_pos ⟨by omega, hT⟩]

theorem bunchGrid_matched {T D : List ℚ} (heq : D.length = T.length)
    (h2 : 1 < T.length) : bunchGrid T D = (some T.length, T, D) := by
  unfold bunchGrid
  rw [if_neg (by omega), if_neg (by omega), if_pos ⟨heq, by omega, h2⟩]

theorem bunchGrid_tileD {T : List ℚ} (d : ℚ) (hT : 1 < T.length) :
    bunchGrid T [d] =
      (some (T.length * 1), T, List.replicate T.length d) := by
  unfold bunchGrid
  simp only [List.length_singleton, List.headI]
  rw [if_neg (by omega), if_pos ⟨by omega, Or.inl hT, by omega⟩,
    if_pos ⟨by omega, by omega⟩]

theorem bunchGrid_tileT {D : List ℚ} (t : ℚ) (hD : 1 < D.length) :
    bunchGrid [t] D =
      (some (1 * D.length), List.replicate D.length t, D) := by
  unfold bunchGrid
  simp only [List.length_singleton, List.headI]
  rw [if_neg (by omega), if_pos ⟨by omega, Or.inr hD, by omega⟩,
    if_neg (by omega), if_pos ⟨by omega, by omega⟩]

/-- C7: in the `bunch` variant, for a temperature input of length `nT` and
a density input of length `nD` with `nT ≠ nD`, at least one of them
exceeding 1 and not both exceeding 1, the normalized grid length is
`N = nT * nD` and the length-1 array is tiled to `N` equal copies of its
single value; when the lengths are equal the grid length is the common
length. -/
theorem c7_bunch_grid_sizing (T D : List ℚ)
    (hT : 1 ≤ T.length) (hD : 1 ≤ D.length) :
    (T.length ≠ D.length → (1 < T.length ∨ 1 < D.length) →
      ¬(1 < T.length ∧ 1 < D.length) →
      (bunchGrid T D).1 = some (T.length * D.length) ∧
      (D.length = 1 → (bunchGrid T D).2.1 = T ∧
        (bunchGrid T D).2.2 =
          List.replicate (T.length * D.length) D.headI) ∧
      (T.length = 1 → (bunchGrid T D).2.1 =
        List.replicate (T.length * D.length) T.headI ∧
        (bunchGrid T D).2.2 = D)) ∧
    (T.length = D.length → (bunchGrid T D).1 = some T.length) := by
  constructor
  · intro hne hone hnboth
    rcases Nat.lt_or_ge 1 T.length with hT2 | hT1
    · have hD1 : D.length = 1 := by omega
      obtain ⟨d, hd⟩ := List.length_eq_one.mp hD1
      subst hd
      rw [bunchGrid_tileD d hT2]
      refine ⟨by simp, ?_, ?_⟩
      · intro _
        refine ⟨rfl, ?_⟩
        simp [List.headI]
      · intro h1
        omega
    · have hT1' : T.length = 1 := by omega
      have hD2 : 1 < D.length := by omega
      obtain ⟨t, ht⟩ := List.length_eq_one.mp hT1'
      subst ht
      rw [bunchGrid_tileT t hD2]
      refine ⟨by simp, ?_, ?_⟩
      · intro h1
        omega
      · intro _
        refine ⟨?_, rfl⟩
        simp [List.headI]
  · intro heq
    by_cases h1 : T.length = 1
    · rw [bunchGrid_one h1 (by omega)]
      rw [h1]
    · rw [bunchGrid_matched heq.symm (by omega)]

/-- Witness for C7 at the concrete inputs `T = [5, 6]`, `D = [7]`. -/
theorem c7_bunch_grid_sizing_witness :
    ((([5, 6] : List ℚ).length ≠ ([7] : List ℚ).length →
      (1 < ([5, 6] : List ℚ).length ∨ 1 < ([7] : List ℚ).length) →
      ¬(1 < ([5, 6] : List ℚ).length ∧ 1 < ([7] : List ℚ).length) →
      (bunchGrid [5, 6] [7]).1 =
        some (([5, 6] : List ℚ).length * ([7] : List ℚ).length) ∧
      (([7] : List ℚ).length = 1 → (bunchGrid [5, 6] [7]).2.1 = [5, 6] ∧
        (bunchGrid [5, 6] [7]).2.2 =
          List.replicate
            (([5, 6] : List ℚ).length * ([7] : List ℚ).length)
            ([7] : List ℚ).headI) ∧
      (([5, 6] : List ℚ).length = 1 → (bunchGrid [5, 6] [7]).2.1 =
        List.replicate
          (([5, 6] : List ℚ).length * ([7] : List ℚ).length)
          ([5, 6] : List ℚ).headI ∧
        (bunchGrid [5, 6] [7]).2.2 = [7])) ∧
     (([5, 6] : List ℚ).length = ([7] : List ℚ).length →
      (bunchGrid [5, 6] [7]).1 = some ([5, 6] : List ℚ).length)) :=
  c7_bunch_grid_sizing [5, 6] [7] (by decide) (by decide)

theorem stepKey_ok_total (species : String → SpeciesExt) (keepIons : Bool)
    (k : String) (st : SpecState)
    (h : ¬("fb" ∈ (species k).procs ∧
      (species k).fbOutcome = FbOutcome.failure)) :
    ∃ st', stepKey species keepIons k st = Except.ok st' := by
  unfold stepKey
  cases hfb : stepFB k (species k) (stepFF (species k) st) with
  | ok st1 => exact ⟨_, rfl⟩
  | error e =>
    exfalso
    unfold stepFB at hfb
    split at hfb
    · rename_i hmem
      cases ho : (species k).fbOutcome with
      | ok e2 => rw [ho] at hfb; simp at hfb
      | noData => rw [ho] at hfb; simp at hfb
      | failure => exact h ⟨hmem, ho⟩
    · simp at hfb

theorem runKeys_ok_total (species : String → SpeciesExt) (keepIons : Bool)
    (h : ∀ k, ¬("fb" ∈ (species k).procs ∧
      (species k).fbOutcome = FbOutcome.failure)) :
    ∀ (keys : List String) (st : SpecState),
      ∃ st', runKeys species keepIons keys st = Except.ok st' := by
  intro keys
  induction keys with
  | nil => intro st; exact ⟨st, rfl⟩
  | cons k ks ih =>
    intro st
    obtain ⟨st1, h1⟩ := stepKey_ok_total species keepIons k st (h k)
    obtain ⟨st', h2⟩ := ih st1
    refine ⟨st', ?_⟩
    unfold runKeys
    rw [h1]
    exact h2

theorem bunchGrid_none {T D : List ℚ} (hT : 1 < T.length)
    (hD : 1 < D.length) (hne : T.length ≠ D.length) :
    (bunchGrid T D).1 = none := by
  unfold bunchGrid
  rw [if_neg (by omega), if_neg (by omega), if_neg (by omega)]

/-- C3 (amended): no GridMismatch rejection exists.  The `spectrum`
constructor performs no grid-length validation: it sets
`NTempDen = max(nT, nD)` for any pair of lengths and, whenever the
abundance argument resolves and no species raises from the free-bound
stage, the run completes normally — also for unequal lengths both
exceeding 1.  In the `bunch` constructor such an uncovered combination
leaves `NTempDen` unset; with the default or a float `em` the subsequent
`np.ones(self.NTempDen)` read fails with an `AttributeError` before any
per-species work, while with a sequence `em` the run proceeds and never
sets a grid length. -/
theorem c3_no_grid_mismatch_rejection (env : SpecEnv) (benv : BunchEnv)
    (habund : env.abundance ≠ AbundArg.nonString)
    (hnofail : ∀ k, ¬("fb" ∈ (env.species k).procs ∧
      (env.species k).fbOutcome = FbOutcome.failure))
    (hbT : 1 < benv.temperature.length) (hbD : 1 < benv.eDensity.length)
    (hbne : benv.temperature.length ≠ benv.eDensity.length) :
    (∃ r, runSpectrum env = SpecOutcome.done r ∧
      r.nTempDen = max env.temperature.length env.eDensity.length) ∧
    ((benv.em = EmArg.zero ∨ (∃ x, benv.em = EmArg.floatPos x)) →
      runBunch benv = BunchOutcome.attrError) ∧
    (∀ xs, benv.em = EmArg.seq xs →
      ∃ br, runBunch benv = BunchOutcome.done br ∧ br.nTempDen = none) := by
  have hga : ∃ a, resolveAbundance env.defaultAbundFile env.abundanceList
      env.guiChoice env.abundance = some a := by
    cases habv : env.abundance with
    | noneArg => exact ⟨_, rfl⟩
    | str s => exact ⟨_, rfl⟩
    | nonString => exact absurd habv habund
  obtain ⟨a, ha⟩ := hga
  obtain ⟨stf, hrun⟩ := runKeys_ok_total env.species env.keepIons hnofail
    env.todoKeys (initState (specN env) env.wavelength.length)
  have hgnone := bunchGrid_none hbT hbD hbne
  refine ⟨⟨specAssemble env a stf, ?_, rfl⟩, ?_, ?_⟩
  · simp only [runSpectrum, ha, hrun]
  · intro hem
    rcases hem with hz | ⟨x, hx⟩
    · simp [runBunch, bunchEm, hgnone, hz]
    · simp [runBunch, bunchEm, hgnone, hx]
  · intro xs hxs
    refine ⟨bunchAssemble benv xs, ?_, ?_⟩
    · simp [runBunch, bunchEm, hxs]
    · show (bunchGrid benv.temperature benv.eDensity).1 = none
      exact hgnone

/-- Witness for the amended C3 at the concrete runs `envW` (spectrum) and
`benvC3` (bunch with lengths 2 and 3 and the default `em`). -/
theorem c3_no_grid_mismatch_rejection_witness :
    (∃ r, runSpectrum envW = SpecOutcome.done r ∧
      r.nTempDen = max envW.temperature.length envW.eDensity.length) ∧
    ((benvC3.em = EmArg.zero ∨ (∃ x, benvC3.em = EmArg.floatPos x)) →
      runBunch benvC3 = BunchOutcome.attrError) ∧
    (∀ xs, benvC3.em = EmArg.seq xs →
      ∃ br, runBunch benvC3 = BunchOutcome.done br ∧ br.nTempDen = none) :=
  c3_no_grid_mismatch_rejection envW benvC3 (by decide)
    (fun _ hc => FbOutcome.noConfusion hc.2) (by decide) (by decide)
    (by decide)

/-- C3 counterexample: the run `envC3` has temperature length 2 and
density length 3 — unequal with both exceeding 1, the combination the
claim says is rejected with a GridMismatch condition — yet the
constructor rejects nothing: the run completes normally with
`NTempDen = 3`, per-species work done and a finished species. -/
theorem c3_counterexample :
    runSpectrum envC3 = SpecOutcome.done resC3 ∧
    envC3.temperature.length = 2 ∧ envC3.eDensity.length = 3 ∧
    resC3.nTempDen = 3 ∧
    resC3.ionsCalculated = ["h_1"] ∧ resC3.finished = ["h_1"] :=
  ⟨rfl, rfl, rfl, rfl, rfl, rfl⟩

theorem lookup_setKey_self (es : List (String × SpectrumEntry))
    (l : String) (v : SpectrumEntry) :
    (setKey es l v).lookup l = some v := by
  induction es with
  | nil => simp [setKey, List.lookup]
  | cons p rest ih =>
    obtain ⟨k, w⟩ := p
    by_cases hk : k = l
    · subst hk
      simp [setKey, List.lookup]
    · have hb : (l == k) = false :=
        beq_eq_false_iff_ne.mpr (fun h => hk h.symm)
      simp [setKey, hk, List.lookup, hb, ih]

theorem lookup_setKey_other {l l' : String} (hne : l' ≠ l)
    (es : List (String × SpectrumEntry)) (v : SpectrumEntry) :
    (setKey es l v).lookup l' = es.lookup l' := by
  have hb : (l' == l) = false := beq_eq_false_iff_ne.mpr hne
  induction es with
  | nil => simp [setKey, List.lookup, hb]
  | cons p rest ih =>
    obtain ⟨k, w⟩ := p
    by_cases hk : k = l
    · subst hk
      simp [setKey, List.lookup, hb]
    · by_cases hk' : l' = k
      · subst hk'
        simp [setKey, hk, List.lookup]
      · have hb2 : (l' == k) = false := beq_eq_false_iff_ne.mpr hk'
        simp [setKey, hk, List.lookup, hb2, ih]

/-- C4 (amended): with a string label and a prior labeled mapping, the new
entry is inserted without disturbing previous entries: after `label='run1'`
on a fresh instance and then `label='run2'` on the same instance, the final
mapping holds both labels and the `run1` entry is exactly what the first
run stored.  However the two records do not carry the same fields: the
record created together with a fresh mapping has no `minAbund` key of its
own (the value sits as a top-level sibling entry of the mapping), while a
record added to an existing mapping includes `minAbund`.  With a
non-string label the stored result is a single unlabeled record replacing
any prior one. -/
theorem c4_label_mapping (env1 env2 : SpecEnv) (r1 r2 : SpecResult)
    (l1 l2 : String)
    (hl1 : env1.label = some l1) (hl2 : env2.label = some l2)
    (hne : l1 ≠ l2) (hm1 : l1 ≠ "minAbund") (hm2 : l2 ≠ "minAbund")
    (hp1 : env1.prior = none) (hp2 : env2.prior = some r1.spectrumAttr)
    (hdone1 : runSpectrum env1 = SpecOutcome.done r1)
    (hdone2 : runSpectrum env2 = SpecOutcome.done r2) :
    (∃ es1 rec1 es2 rec2,
      r1.spectrumAttr = SpectrumAttr.labeled es1 ∧
      es1.lookup l1 = some (SpectrumEntry.record rec1) ∧
      r2.spectrumAttr = SpectrumAttr.labeled es2 ∧
      es2.lookup l1 = some (SpectrumEntry.record rec1) ∧
      es2.lookup l2 = some (SpectrumEntry.record rec2) ∧
      es2.lookup "minAbund" = some (SpectrumEntry.num env1.minAbund) ∧
      rec1.minAbund = none ∧
      rec2.minAbund = some env2.minAbund) ∧
    (∀ (env3 : SpecEnv) (r3 : SpecResult), env3.label = none →
      runSpectrum env3 = SpecOutcome.done r3 →
      ∃ rec3, r3.spectrumAttr = SpectrumAttr.single rec3 ∧
        rec3.minAbund = some env3.minAbund) := by
  obtain ⟨a1, st1, _, _, hr1⟩ := runSpectrum_done hdone1
  obtain ⟨a2, st2, _, _, hr2⟩ := runSpectrum_done hdone2
  subst hr1
  subst hr2
  constructor
  · have hA1 : (specAssemble env1 a1 st1).spectrumAttr =
        SpectrumAttr.labeled
          [(l1, SpectrumEntry.record (mkFreshRec (recParamsOf env1 a1 st1))),
           ("minAbund",
             SpectrumEntry.num (recParamsOf env1 a1 st1).minAbund)] := by
      rw [specAssemble_attr, hl1, hp1]
      simp only [storeResult]
      rw [if_neg hm1]
    have hA2 : (specAssemble env2 a2 st2).spectrumAttr =
        SpectrumAttr.labeled
          (setKey
            [(l1, SpectrumEntry.record (mkFreshRec (recParamsOf env1 a1 st1))),
             ("minAbund",
               SpectrumEntry.num (recParamsOf env1 a1 st1).minAbund)]
            l2
            (SpectrumEntry.record (mkLabeledRec (recParamsOf env2 a2 st2)))) := by
      rw [specAssemble_attr, hl2, hp2, hA1]
      simp only [storeResult]
    refine ⟨_, mkFreshRec (recParamsOf env1 a1 st1), _,
      mkLabeledRec (recParamsOf env2 a2 st2), hA1, ?_, hA2, ?_, ?_, ?_,
      rfl, rfl⟩
    · simp [List.lookup]
    · rw [lookup_setKey_other hne]
      simp [List.lookup]
    · exact lookup_setKey_self _ _ _
    · rw [lookup_setKey_other (Ne.symm hm2)]
      have hb : (("minAbund" : String) == l1) = false :=
        beq_eq_false_iff_ne.mpr (Ne.symm hm1)
      simp [List.lookup, hb, recParamsOf]
  · intro env3 r3 hl3 hdone3
    obtain ⟨a3, st3, _, _, hr3⟩ := runSpectrum_done hdone3
    subst hr3
    refine ⟨mkUnlabeledRec (recParamsOf env3 a3 st3), ?_, rfl⟩
    rw [specAssemble_attr, hl3]
    rfl

/-- Witness for the amended C4 at the concrete two-run scenario
`envL1` (`label='run1'`) followed by `envL2` (`label='run2'`). -/
theorem c4_label_mapping_witness :
    (∃ es1 rec1 es2 rec2,
      resL1.spectrumAttr = SpectrumAttr.labeled es1 ∧
      es1.lookup "run1" = some (SpectrumEntry.record rec1) ∧
      resL2.spectrumAttr = SpectrumAttr.labeled es2 ∧
      es2.lookup "run1" = some (SpectrumEntry.record rec1) ∧
      es2.lookup "run2" = some (SpectrumEntry.record rec2) ∧
      es2.lookup "minAbund" = some (SpectrumEntry.num envL1.minAbund) ∧
      rec1.minAbund = none ∧
      rec2.minAbund = some envL2.minAbund) ∧
    (∀ (env3 : SpecEnv) (r3 : SpecResult), env3.label = none →
      runSpectrum env3 = SpecOutcome.done r3 →
      ∃ rec3, r3.spectrumAttr = SpectrumAttr.single rec3 ∧
        rec3.minAbund = some env3.minAbund) :=
  c4_label_mapping envL1 envL2 resL1 resL2 "run1" "run2" rfl rfl
    (by decide) (by decide) (by decide) rfl rfl rfl rfl

/-- C4 counterexample: two labeled runs with identical inputs on the same
engine instance (`run1` then `run2`).  Both keys end up present, but the
two records do not hold the same fields: the `run1` record has no
`minAbund` entry (the value sits as a top-level sibling key of the
mapping), while the `run2` record carries `minAbund` — contradicting
"independently correct content (same record fields for both)". -/
theorem c4_counterexample :
    runSpectrum envL1 = SpecOutcome.done resL1 ∧
    runSpectrum envL2 = SpecOutcome.done resL2 ∧
    (∃ es, resL2.spectrumAttr = SpectrumAttr.labeled es ∧
      (∃ a, es.lookup "run1" = some (SpectrumEntry.record a) ∧
        a.minAbund = none) ∧
      (∃ b, es.lookup "run2" = some (SpectrumEntry.record b) ∧
        b.minAbund = some (1/1000000)) ∧
      es.lookup "minAbund" = some (SpectrumEntry.num (1/1000000))) :=
  ⟨rfl, rfl, ⟨_, rfl, ⟨_, rfl, rfl⟩, ⟨_, rfl, rfl⟩, rfl⟩⟩

/-- C9 (amended): a non-string `abundance` argument does not raise any
error: the constructor prints a complaint and returns early.  No
per-species work is done and no result record or exception is produced —
but the outcome is not free of partial state: the grid attributes
assigned before the check (Temperature, EDensity, NTempDen, Wavelength,
Em) remain set on the instance. -/
theorem c9_nonstring_abundance_early_return (env : SpecEnv)
    (h : env.abundance = AbundArg.nonString) :
    runSpectrum env = SpecOutcome.earlyReturn
      { temperature := env.temperature, eDensity := env.eDensity,
        nTempDen := specN env, wavelength := env.wavelength,
        em := (emNormalize (specN env) env.em).1 } ∧
    (∀ r, runSpectrum env ≠ SpecOutcome.done r) ∧
    (∀ e, runSpectrum env ≠ SpecOutcome.raised e) := by
  have h1 : runSpectrum env = SpecOutcome.earlyReturn
      { temperature := env.temperature, eDensity := env.eDensity,
        nTempDen := specN env, wavelength := env.wavelength,
        em := (emNormalize (specN env) env.em).1 } := by
    simp only [runSpectrum, resolveAbundance, h]
  refine ⟨h1, ?_, ?_⟩
  · intro r hr
    rw [h1] at hr
    simp at hr
  · intro e he
    rw [h1] at he
    simp at he

/-- Witness for the amended C9 at the concrete run `envC9`. -/
theorem c9_nonstring_abundance_early_return_witness :
    runSpectrum envC9 = SpecOutcome.earlyReturn
      { temperature := envC9.temperature, eDensity := envC9.eDensity,
        nTempDen := specN envC9, wavelength := envC9.wavelength,
        em := (emNormalize (specN envC9) envC9.em).1 } ∧
    (∀ r, runSpectrum envC9 ≠ SpecOutcome.done r) ∧
    (∀ e, runSpectrum envC9 ≠ SpecOutcome.raised e) :=
  c9_nonstring_abundance_early_return envC9 rfl

/-- C9 counterexample: with a non-string abundance the concrete run
`envC9` does not fail with any fatal error condition: the constructor
returns normally after printing, and the attributes assigned before the
check (Temperature, EDensity, NTempDen, Wavelength, Em) are left behind
as partially initialized engine state. -/
theorem c9_counterexample :
    runSpectrum envC9 = SpecOutcome.earlyReturn
      { temperature := [1000000], eDensity := [1000000000], nTempDen := 1,
        wavelength := [10, 20], em := [1] } ∧
    (∀ e, runSpectrum envC9 ≠ SpecOutcome.raised e) := by
  have h1 : runSpectrum envC9 = SpecOutcome.earlyReturn
      { temperature := [1000000], eDensity := [1000000000], nTempDen := 1,
        wavelength := [10, 20], em := [1] } := rfl
  refine ⟨h1, ?_⟩
  intro e he
  rw [h1] at he
  simp at he

theorem runBunch_done {benv : BunchEnv} {br : BunchResult}
    (h : runBunch benv = BunchOutcome.done br) :
    ∃ emArr, bunchEm (bunchGrid benv.temperature benv.eDensity).1 benv.em =
      some emArr ∧ br = bunchAssemble benv emArr := by
  unfold runBunch at h
  split at h
  · simp at h
  · rename_i emArr heq
    injection h with h2
    exact ⟨emArr, heq, h2.symm⟩

theorem bunchLoop_invariant (P : BunchState → Prop) (keepIons : Bool)
    (species : String → BunchSpeciesExt)
    (hstep : ∀ st k, P st → P (bunchStep keepIons species st k)) :
    ∀ (keys : List String) (st : BunchState), P st →
      P (bunchLoop keepIons species keys st) := by
  intro keys
  induction keys with
  | nil => intro st h; exact h
  | cons k ks ih => intro st h; exact ih _ (hstep st k h)

theorem bunchStep_lists (keepIons : Bool)
    (species : String → BunchSpeciesExt) (st : BunchState) (k : String) :
    (bunchStep keepIons species st k).ionsCalculated =
      st.ionsCalculated ++ [k] ∧
    (bunchStep keepIons species st k).finished =
      (if (species k).lineError = false then st.finished ++ [k]
       else st.finished) ∧
    (bunchStep keepIons species st k).ionInstanceKeys =
      (if (species k).lineError = false ∧ keepIons = true
       then st.ionInstanceKeys ++ [k] else st.ionInstanceKeys) := by
  unfold bunchStep
  by_cases h2 : (species k).lineError = false
  · by_cases h4 : keepIons = true <;> simp [h2, h4]
  · simp [h2]

/-- C10: with ion retention requested (`keepIons`), the keys of the
retained `IonInstances` mapping form a subset of the `Finished` list, and
only species whose intensity computation reported no error are retained —
models for failed species are never stored.  Holds for both the
`spectrum` and the `bunch` variant. -/
theorem c10_kept_instances (env : SpecEnv) (r : SpecResult)
    (benv : BunchEnv) (br : BunchResult)
    (hdone : runSpectrum env = SpecOutcome.done r)
    (hbdone : runBunch benv = BunchOutcome.done br) :
    ((∀ k, k ∈ r.ionInstanceKeys → k ∈ r.finished) ∧
     (∀ k, k ∈ r.ionInstanceKeys → (env.species k).lineError = false)) ∧
    ((∀ k, k ∈ br.ionInstanceKeys → k ∈ br.finished) ∧
     (∀ k, k ∈ br.ionInstanceKeys →
       (benv.species k).lineError = false)) := by
  constructor
  · obtain ⟨a, st, _, hrun, hr⟩ := runSpectrum_done hdone
    subst hr
    obtain ⟨p1, p2, p3, p4, p5⟩ :=
      runKeys_listsInv hrun (listsInv_init env.species _ _)
    have hl := specAssemble_lists env a st
    rw [hl.2.1, hl.2.2]
    exact ⟨p5, fun k hk => (p2 k (p5 k hk)).2⟩
  · obtain ⟨emArr, _, hbr⟩ := runBunch_done hbdone
    subst hbr
    have hinv := bunchLoop_invariant
      (fun st => (∀ k ∈ st.ionInstanceKeys, k ∈ st.finished) ∧
        (∀ k ∈ st.finished, (benv.species k).lineError = false))
      benv.keepIons benv.species
      (by
        intro st k hP
        obtain ⟨q1, q2⟩ := hP
        obtain ⟨hbl1, hbl2, hbl3⟩ :=
          bunchStep_lists benv.keepIons benv.species st k
        by_cases h2 : (benv.species k).lineError = false
        · constructor
          · intro j hj
            rw [hbl3] at hj
            rw [hbl2, if_pos h2]
            by_cases h4 : benv.keepIons = true
            · rw [if_pos ⟨h2, h4⟩] at hj
              rcases List.mem_append.mp hj with hj | hj
              · exact List.mem_append_left _ (q1 j hj)
              · exact List.mem_append_right _ hj
            · rw [if_neg (fun hc => h4 hc.2)] at hj
              exact List.mem_append_left _ (q1 j hj)
          · intro j hj
            rw [hbl2, if_pos h2] at hj
            rcases List.mem_append.mp hj with hj | hj
            · exact q2 j hj
            · rw [List.mem_singleton.mp hj]
              exact h2
        · constructor
          · intro j hj
            rw [hbl3, if_neg (fun hc => h2 hc.1)] at hj
            rw [hbl2, if_neg h2]
            exact q1 j hj
          · intro j hj
            rw [hbl2, if_neg h2] at hj
            exact q2 j hj)
      benv.todoKeys initBunchState
      ⟨fun j hj => by simp [initBunchState] at hj,
       fun j hj => by simp [initBunchState] at hj⟩
    exact ⟨fun k hk => hinv.1 k hk, fun k hk => hinv.2 k (hinv.1 k hk)⟩

/-- Witness for C10 at the concrete runs `envW` (spectrum, `keepIons`
set) and `benvW` (bunch with one succeeding and one failing species). -/
theorem c10_kept_instances_witness :
    ((∀ k, k ∈ resW.ionInstanceKeys → k ∈ resW.finished) ∧
     (∀ k, k ∈ resW.ionInstanceKeys →
       (envW.species k).lineError = false)) ∧
    ((∀ k, k ∈ bresW.ionInstanceKeys → k ∈ bresW.finished) ∧
     (∀ k, k ∈ bresW.ionInstanceKeys →
       (benvW.species k).lineError = false)) :=
  c10_kept_instances envW resW benvW bresW rfl rfl

end ChiantiSpec
